import Mathlib

/-!
Verification of `infrastructure/scripts/validate-config.py` (the GameMaster's
Companion configuration validator).

The development is a shallow embedding of the Python script:

* YAML documents become the inductive tree `VC.Val`; Python truthiness,
  `dict.get`, subscripting, `in`-membership and `str()` conversion are embedded
  as explicit functions.  Operations that can raise an uncaught Python
  exception (`int()` / `float()` on malformed text, attribute access on a
  non-dict, subscripting a missing key, comparing incomparable values) are
  embedded in `Option`, with `none` standing for "the script crashes here".
* The mutable `self.errors` / `self.warnings` lists of `ConfigValidator`
  become an explicit state `VC.VState` threaded through every validator; the
  Python `list.append` becomes `VState.addError` / `VState.addWarning`.
* Filesystem reads are modelled by explicit inputs: the set of existing paths
  for the chart-structure check, and a three-way outcome (missing file /
  parse failure / parsed document) for files that are opened and parsed.

Modelling notes (approximations that do not affect any theorem below):
* Python `int()` / `float()` are embedded for optionally signed decimal
  numerals with optional surrounding whitespace; underscored numerals,
  exponent notation, `inf` and `nan` are not modelled (they are treated as a
  parse failure).  `int(float(s) * 1000)` is computed with exact rational
  arithmetic instead of binary floating point.
* `str()` of a list or dict value (its `repr`) is not modelled; applying
  `str` to such a value is treated as a crash.  In the script such a value
  can reach `str` only inside `_parse_*` (where the resulting bracketed text
  fails numeric parsing anyway, i.e. crashes for CPU/memory) or in an
  f-string of `_validate_resource_ratio`.
* The `:.1f` float format of `_validate_storage_config` is embedded as exact
  round-half-even to one decimal place.
-/

namespace VC

/-! Character-list helpers for the embedded Python string operations. -/

/-- Embeds `big.startswith(pre)` on character lists. -/
def startsWithL : List Char → List Char → Bool
  | _, [] => true
  | [], _ :: _ => false
  | c :: cs, p :: ps => c == p && startsWithL cs ps

/-- Embeds `s.endswith(suf)` on character lists. -/
def endsWithL (l suf : List Char) : Bool :=
  startsWithL l.reverse suf.reverse

/-- Embeds `s[:-n]`: drop the last `n` characters. -/
def dropRightL (l : List Char) (n : Nat) : List Char :=
  l.take (l.length - n)

/-- Whitespace stripped by Python `int()` / `float()`. -/
def isWS (c : Char) : Bool :=
  c == ' ' || c == '\t' || c == '\n' || c == '\r'

def stripLeadWS : List Char → List Char
  | [] => []
  | c :: cs => if isWS c then stripLeadWS cs else c :: cs

/-- Strip whitespace from both ends. -/
def stripWS (l : List Char) : List Char :=
  ((stripLeadWS ((stripLeadWS l).reverse)).reverse)

/-- Value of a non-empty all-digit character list; `none` otherwise. -/
def digitsVal (l : List Char) : Option Nat :=
  if l.isEmpty then none
  else if l.all Char.isDigit then
    some (l.foldl (fun a c => a * 10 + (c.toNat - 48)) 0)
  else none

/-- Python `int(s)` for a decimal numeral: optional surrounding whitespace,
optional sign, non-empty digit string.  `none` models `ValueError`. -/
def pyInt (s : List Char) : Option Int :=
  match stripWS s with
  | [] => none
  | c :: rest =>
    if c == '+' then (digitsVal rest).map Int.ofNat
    else if c == '-' then (digitsVal rest).map (fun n => -(Int.ofNat n))
    else (digitsVal (c :: rest)).map Int.ofNat

/-- Split a character list at the first dot, if any. -/
def breakDot : List Char → List Char × Option (List Char)
  | [] => ([], none)
  | c :: rest =>
    if c == '.' then ([], some rest)
    else
      let p := breakDot rest
      (c :: p.1, p.2)

/-- Unsigned decimal: returns `(digits-value, number-of-fraction-digits)`,
so the represented rational is `value / 10 ^ k`. -/
def pyFloatUnsigned (l : List Char) : Option (Nat × Nat) :=
  match breakDot l with
  | (intPart, none) => (digitsVal intPart).map (fun v => (v, 0))
  | (intPart, some fracPart) =>
    if intPart.isEmpty && fracPart.isEmpty then none
    else if intPart.all Char.isDigit && fracPart.all Char.isDigit then
      some ((intPart ++ fracPart).foldl (fun a c => a * 10 + (c.toNat - 48)) 0,
            fracPart.length)
    else none

/-- Python `float(s)` for decimal notation, as an exact rational
`num / 10 ^ k`.  `none` models `ValueError`. -/
def pyFloat (s : List Char) : Option (Int × Nat) :=
  match stripWS s with
  | [] => none
  | c :: rest =>
    if c == '+' then (pyFloatUnsigned rest).map (fun p => ((p.1 : Int), p.2))
    else if c == '-' then (pyFloatUnsigned rest).map (fun p => (-(p.1 : Int), p.2))
    else (pyFloatUnsigned (c :: rest)).map (fun p => ((p.1 : Int), p.2))

/-! The YAML value tree and the embedded Python value operations. -/

/-- A parsed YAML value, as `yaml.safe_load` produces it (floats are not
modelled; none of the validated configurations uses float scalars). -/
inductive Val where
  | vnull
  | vbool (b : Bool)
  | vint (n : Int)
  | vstr (s : String)
  | vseq (l : List Val)
  | vmap (l : List (String × Val))

/-- Python truthiness of a value. -/
def Val.truthy : Val → Bool
  | .vnull => false
  | .vbool b => b
  | .vint n => n != 0
  | .vstr s => s ≠ ""
  | .vseq l => !l.isEmpty
  | .vmap l => !l.isEmpty

/-- First binding of a key in a (duplicate-free) dict. -/
def lookupKV : List (String × Val) → String → Option Val
  | [], _ => none
  | (k, v) :: rest, key => if k == key then some v else lookupKV rest key

/-- Python `d.get(k, default)`.  Crashes (`none`) when `d` is not a dict. -/
def pyGetD (v : Val) (k : String) (d : Val) : Option Val :=
  match v with
  | .vmap l => some ((lookupKV l k).getD d)
  | _ => none

/-- Python `d[k]`.  Crashes when `d` is not a dict or the key is missing. -/
def pySub (v : Val) (k : String) : Option Val :=
  match v with
  | .vmap l => lookupKV l k
  | _ => none

/-- Python `k in v` for a string `k`: key membership for dicts, element
equality for lists.  Other receivers (where Python would do substring search
or raise `TypeError`) are treated as a crash. -/
def pyContains (v : Val) (k : String) : Option Bool :=
  match v with
  | .vmap l => some (l.any (fun p => p.1 == k))
  | .vseq l => some (l.any (fun e => match e with | .vstr s => s == k | _ => false))
  | _ => none

/-- Python `v == s` for a string literal `s`: true only for an equal string. -/
def valEqStrB (v : Val) (s : String) : Bool :=
  match v with
  | .vstr t => t == s
  | _ => false

/-- Python `v < k` for an int literal `k`; bools compare as 0/1, anything
else raises `TypeError` (crash). -/
def valLtInt (v : Val) (k : Int) : Option Bool :=
  match v with
  | .vint n => some (decide (n < k))
  | .vbool b => some (decide ((if b then (1 : Int) else 0) < k))
  | _ => none

/-- Python `str(v)` for scalar values; `str` of a list/dict is not modelled
(treated as a crash, see the header comment). -/
def pyStr : Val → Option String
  | .vstr s => some s
  | .vint n => some (toString n)
  | .vbool true => some "True"
  | .vbool false => some "False"
  | .vnull => some "None"
  | _ => none

/-! The unit parsers `_parse_cpu_value`, `_parse_memory_size` and
`_parse_storage_size`. -/

/-- Embeds `_parse_cpu_value`: CPU quantity to millicores.  `none` models an
uncaught `ValueError`. -/
def _parse_cpu_value (v : Val) : Option Int :=
  if !v.truthy then some 0
  else do
    let s ← pyStr v
    let l := s.data.map Char.toLower
    if endsWithL l ['m'] then pyInt (dropRightL l 1)
    else do
      let f ← pyFloat l
      pure (Int.tdiv (f.1 * 1000) ((10 : Int) ^ f.2))

/-- Embeds `_parse_memory_size`: memory quantity to MB.  `none` models an uncaught
`ValueError`. -/
def _parse_memory_size (v : Val) : Option Int :=
  if !v.truthy then some 0
  else do
    let s ← pyStr v
    let l := s.data.map Char.toUpper
    if endsWithL l ['M', 'I'] then pyInt (dropRightL l 2)
    else if endsWithL l ['G', 'I'] then (pyInt (dropRightL l 2)).map (· * 1024)
    else if endsWithL l ['M'] then pyInt (dropRightL l 1)
    else if endsWithL l ['G'] then (pyInt (dropRightL l 1)).map (· * 1024)
    else pyInt l

/-- Embeds `_parse_storage_size`: storage quantity to MB, `Optional[int]`.  The
outer `Option` models an uncaught `ValueError` (possible only on the suffixed
branches); the inner one is the function's own `None` result. -/
def _parse_storage_size (v : Val) : Option (Option Int) :=
  if !v.truthy then some none
  else do
    let s ← pyStr v
    let l := s.data.map Char.toUpper
    if endsWithL l ['G', 'I'] then (pyInt (dropRightL l 2)).map (fun n => some (n * 1024))
    else if endsWithL l ['G'] then (pyInt (dropRightL l 1)).map (fun n => some (n * 1024))
    else if endsWithL l ['M', 'I'] then (pyInt (dropRightL l 2)).map some
    else if endsWithL l ['M'] then (pyInt (dropRightL l 1)).map some
    else some (pyInt l)

/-! The findings state of `ConfigValidator` (`self.errors`, `self.warnings`)
and the finding messages. -/

/-- Findings state of a validation run: the `self.errors` and `self.warnings`
lists of `ConfigValidator`. -/
structure VState where
  errors : List String
  warnings : List String
deriving DecidableEq

/-- Embeds `self.errors.append(m)`. -/
def VState.addError (st : VState) (m : String) : VState :=
  ⟨st.errors ++ [m], st.warnings⟩

/-- Embeds `self.warnings.append(m)`. -/
def VState.addWarning (st : VState) (m : String) : VState :=
  ⟨st.errors, st.warnings ++ [m]⟩

def parseFailMsg (fname e : String) : String :=
  "Failed to parse " ++ fname ++ ": " ++ e

def missingSectionMsg (sec fname : String) : String :=
  "Missing required section \x27" ++ sec ++ "\x27 in " ++ fname

def cpuLimitLtMsg (service ls rs : String) : String :=
  service ++ ": CPU limit (" ++ ls ++ ") is less than request (" ++ rs ++ ")"

def cpuLimitHighMsg (service : String) : String :=
  service ++ ": CPU limit is much higher than request - consider adjusting"

def memLimitLtMsg (service ls rs : String) : String :=
  service ++ ": Memory limit (" ++ ls ++ ") is less than request (" ++ rs ++ ")"

def memLimitHighMsg (service : String) : String :=
  service ++ ": Memory limit is much higher than request - consider adjusting"

def totalCpuMsg (c : Int) : String :=
  "Total CPU requests (" ++ toString c ++ "m) may exceed development machine capacity"

def totalMemMsg (m : Int) : String :=
  "Total memory requests (" ++ toString m ++ "Mi) may exceed development machine capacity"

def storageClassMsg : String := "Global storage class not specified"

/-- Round-half-even of `a / b` for `b > 0`, embedding how Python `:.1f`
rounds (see the header comment). -/
def roundHalfEvenDiv (a b : Int) : Int :=
  let q := Int.ediv a b
  let r := a - q * b
  if 2 * r < b then q
  else if b < 2 * r then q + 1
  else if Int.emod q 2 == 0 then q else q + 1

/-- Embeds the f-string fragment `f"{total/1024:.1f}"`. -/
def renderGB (total : Int) : String :=
  let t10 := roundHalfEvenDiv (total * 10) 1024
  toString (Int.ediv t10 10) ++ "." ++ toString (Int.emod t10 10)

def totalStorageMsg (total : Int) : String :=
  "Total storage requests (" ++ renderGB total ++ "GB) are quite large for development"

def kindMissingMsg : String := "Missing Kind cluster configuration file"

def kindParseFailMsg (e : String) : String := "Failed to parse Kind config: " ++ e

def kindTypeMsg : String := "Kind config must be of type \x27Cluster\x27"

def noNodesMsg : String := "At least one node must be defined"

def noControlPlaneMsg : String := "At least one control-plane node must be defined"

def noPortMappingsMsg : String :=
  "No port mappings defined for control plane - services won\x27t be accessible"

/-! Embedded compound conditions.  Python's short-circuiting `and` in the
validators is factored into named helpers so that each Lean definition is a
linear chain of monadic binds. -/

/-- Embeds `k in a and k in b` (the ratio check's `'cpu' in requests and
'cpu' in limits`). -/
def bothHaveKey (a b : Val) (k : String) : Option Bool := do
  let ha ← pyContains a k
  if ha then pyContains b k else pure false

/-- Embeds `k1 in v and k2 in v` (the API check's `'requests' in resources
and 'limits' in resources`). -/
def hasKeys2 (v : Val) (k1 k2 : String) : Option Bool := do
  let h1 ← pyContains v k1
  if h1 then pyContains v k2 else pure false

/-- Embeds `k1 in v and k2 in v[k1]`. -/
def subHasKey (v : Val) (k1 k2 : String) : Option Bool := do
  let h ← pyContains v k1
  if h then do
    let s ← pySub v k1
    pyContains s k2
  else pure false

/-- Embeds `k in v and v[k].get('enabled')`. -/
def subEnabled (v : Val) (k : String) : Option Bool := do
  let h ← pyContains v k
  if h then do
    let s ← pySub v k
    let en ← pyGetD s "enabled" .vnull
    pure en.truthy
  else pure false

/-! The section validators.  Each is a direct translation of the
corresponding `ConfigValidator` method (split into one helper per source
statement group); the findings state is passed explicitly, and `none`
models an uncaught Python exception. -/

/-- Embeds the CPU half of `_validate_resource_ratio`. -/
def ratioCpuCheck (requests limits : Val) (service : String) (st : VState) :
    Option VState := do
  let both ← bothHaveKey requests limits "cpu"
  if both then do
    let rv ← pySub requests "cpu"
    let reqCpu ← _parse_cpu_value rv
    let lv ← pySub limits "cpu"
    let limCpu ← _parse_cpu_value lv
    if limCpu < reqCpu then do
      let ls ← pyStr lv
      let rs ← pyStr rv
      pure (st.addError (cpuLimitLtMsg service ls rs))
    else if limCpu > reqCpu * 4 then
      pure (st.addWarning (cpuLimitHighMsg service))
    else pure st
  else pure st

/-- Embeds the memory half of `_validate_resource_ratio`. -/
def ratioMemCheck (requests limits : Val) (service : String) (st : VState) :
    Option VState := do
  let both ← bothHaveKey requests limits "memory"
  if both then do
    let rv ← pySub requests "memory"
    let reqMem ← _parse_memory_size rv
    let lv ← pySub limits "memory"
    let limMem ← _parse_memory_size lv
    if limMem < reqMem then do
      let ls ← pyStr lv
      let rs ← pyStr rv
      pure (st.addError (memLimitLtMsg service ls rs))
    else if limMem > reqMem * 4 then
      pure (st.addWarning (memLimitHighMsg service))
    else pure st
  else pure st

/-- Embeds `_validate_resource_ratio`. -/
def _validate_resource_ratio (resources : Val) (service : String) (st : VState) :
    Option VState := do
  let requests ← pyGetD resources "requests" (.vmap [])
  let limits ← pyGetD resources "limits" (.vmap [])
  let st ← ratioCpuCheck requests limits service st
  ratioMemCheck requests limits service st

/-- Embeds the replica-count check of `_validate_api_config`. -/
def apiReplicaCheck (api : Val) (st : VState) : Option VState := do
  let rc ← pyGetD api "replicaCount" (.vint 1)
  let lt ← valLtInt rc 1
  pure (if lt then st.addError "API replica count must be at least 1" else st)

/-- Embeds the resource-ratio dispatch of `_validate_api_config`. -/
def apiRatioCheck (api : Val) (st : VState) : Option VState := do
  let resources ← pyGetD api "resources" (.vmap [])
  let both ← hasKeys2 resources "requests" "limits"
  if both then _validate_resource_ratio resources "api" st else pure st

/-- Embeds the health-check block of `_validate_api_config`. -/
def apiHealthCheck (api : Val) (st : VState) : Option VState := do
  let en ← subEnabled api "healthCheck"
  if en then do
    let hc ← pySub api "healthCheck"
    let p ← pyGetD hc "path" .vnull
    pure (if !p.truthy then st.addWarning "Health check path not specified for API" else st)
  else pure st

/-- Embeds `_validate_api_config`. -/
def _validate_api_config (api : Val) (st : VState) : Option VState := do
  let st ← apiReplicaCheck api st
  let st ← apiRatioCheck api st
  apiHealthCheck api st

/-- Embeds the `not size or not self._parse_storage_size(size)` condition
of `_validate_database_config` (Python truthiness of the parse result). -/
def storageSizeBad (size : Val) : Option Bool :=
  if !size.truthy then pure true
  else do
    let ps ← _parse_storage_size size
    pure (match ps with | none => true | some n => n == 0)

/-- Embeds the persistence block of `_validate_database_config`. -/
def dbPersistenceCheck (db : Val) (st : VState) : Option VState := do
  let cond ← subHasKey db "primary" "persistence"
  if cond then do
    let p ← pySub db "primary"
    let persistence ← pySub p "persistence"
    let en ← pyGetD persistence "enabled" .vnull
    if en.truthy then do
      let size ← pyGetD persistence "size" (.vstr "")
      let bad ← storageSizeBad size
      pure (if bad then st.addError "Invalid database storage size" else st)
    else pure st
  else pure st

/-- Embeds the authentication block of `_validate_database_config`. -/
def dbAuthCheck (db : Val) (st : VState) : Option VState := do
  let auth ← pyGetD db "auth" (.vmap [])
  let dbname ← pyGetD auth "database" .vnull
  let st := if !dbname.truthy then st.addWarning "Database name not specified" else st
  let password ← pyGetD auth "postgresPassword" (.vstr "")
  pure (if valEqStrB password "changeme" then
    st.addWarning "Default database password detected - change for production" else st)

/-- Embeds `_validate_database_config`. -/
def _validate_database_config (db : Val) (st : VState) : Option VState := do
  let st ← dbPersistenceCheck db st
  dbAuthCheck db st

/-- Embeds the memory-request sub-check of the vLLM block. -/
def vllmMemCheck (resources : Val) (st : VState) : Option VState := do
  let hasReq ← pyContains resources "requests"
  if hasReq then do
    let req ← pySub resources "requests"
    let memory ← pyGetD req "memory" (.vstr "")
    if memory.truthy then do
      let m ← _parse_memory_size memory
      pure (if m < 1024 then
        st.addWarning "vLLM memory request may be too low for model loading" else st)
    else pure st
  else pure st

/-- Embeds the vLLM block of `_validate_ai_config`. -/
def aiVllmCheck (ai : Val) (st : VState) : Option VState := do
  let en ← subEnabled ai "vllm"
  if en then do
    let vllm ← pySub ai "vllm"
    let model ← pyGetD vllm "model" (.vstr "")
    let st := if !model.truthy then st.addError "vLLM model not specified" else st
    let resources ← pyGetD vllm "resources" (.vmap [])
    let st ← vllmMemCheck resources st
    let persistence ← pyGetD vllm "persistence" (.vmap [])
    let pen ← pyGetD persistence "enabled" .vnull
    pure (if !pen.truthy then
      st.addWarning "vLLM persistence disabled - models will be re-downloaded on restart"
      else st)
  else pure st

/-- Embeds the audio-processor block of `_validate_ai_config`. -/
def aiAudioCheck (ai : Val) (st : VState) : Option VState := do
  let en ← subEnabled ai "audioProcessor"
  if en then do
    let audio ← pySub ai "audioProcessor"
    let env' ← pyGetD audio "env" (.vmap [])
    let dm ← pyGetD env' "DIART_MODEL" .vnull
    pure (if !dm.truthy then st.addWarning "Audio processor model not specified" else st)
  else pure st

/-- Embeds `_validate_ai_config`. -/
def _validate_ai_config (ai : Val) (st : VState) : Option VState := do
  let st ← aiVllmCheck ai st
  aiAudioCheck ai st

/-- Shared body of both loops of `_validate_resource_limits`: add a
service's `resources.requests` CPU/memory to the running totals. -/
def addRequests (resources : Val) (acc : Int × Int) : Option (Int × Int) := do
  let hasReq ← pyContains resources "requests"
  if hasReq then do
    let req ← pySub resources "requests"
    let cv ← pyGetD req "cpu" (.vstr "0")
    let cpu ← _parse_cpu_value cv
    let mv ← pyGetD req "memory" (.vstr "0")
    let mem ← _parse_memory_size mv
    pure (acc.1 + cpu, acc.2 + mem)
  else pure acc

/-- One iteration of the first loop of `_validate_resource_limits`
(`for service in ['api', 'frontend']`). -/
def addTopService (values : Val) (svc : String) (acc : Int × Int) : Option (Int × Int) := do
  let c ← pyContains values svc
  if c then do
    let sv ← pySub values svc
    let resources ← pyGetD sv "resources" (.vmap [])
    addRequests resources acc
  else pure acc

/-- One iteration of the second loop of `_validate_resource_limits`
(`for service in ['postgresql', 'redis']`, descending into the `primary` /
`master` sub-map, `continue` when it is missing). -/
def addSubService (values : Val) (svc sub : String) (acc : Int × Int) :
    Option (Int × Int) := do
  let c ← pyContains values svc
  if c then do
    let sv ← pySub values svc
    let hasSub ← pyContains sv sub
    if hasSub then do
      let p ← pySub sv sub
      let resources ← pyGetD p "resources" (.vmap [])
      addRequests resources acc
    else pure acc
  else pure acc

/-- Embeds `_validate_resource_limits`. -/
def _validate_resource_limits (values : Val) (st : VState) : Option VState := do
  let acc ← addTopService values "api" (0, 0)
  let acc ← addTopService values "frontend" acc
  let acc ← addSubService values "postgresql" "primary" acc
  let acc ← addSubService values "redis" "master" acc
  let st := if acc.1 > 4000 then st.addWarning (totalCpuMsg acc.1) else st
  let st := if acc.2 > 8192 then st.addWarning (totalMemMsg acc.2) else st
  pure st

/-- Keys walked by `_get_service_storage_size` for each service name. -/
def persistencePath (service : String) : Option (String × String) :=
  if service == "postgresql" then some ("postgresql", "primary")
  else if service == "redis" then some ("redis", "master")
  else if service == "vllm" then some ("ai", "vllm")
  else none

/-- Embeds `_get_service_storage_size`. -/
def _get_service_storage_size (values : Val) (service : String) : Option Int :=
  match persistencePath service with
  | none => pure 0
  | some (k1, k2) => do
    let a ← pyGetD values k1 (.vmap [])
    let b ← pyGetD a k2 (.vmap [])
    let persistence ← pyGetD b "persistence" (.vmap [])
    let en ← pyGetD persistence "enabled" .vnull
    if en.truthy then do
      let size ← pyGetD persistence "size" (.vstr "")
      let ps ← _parse_storage_size size
      pure (ps.getD 0)
    else pure 0

/-- Embeds the storage-summing loop body of `_validate_storage_config`
(`if storage_size: total_storage += storage_size`). -/
def addServiceStorage (values : Val) (acc : Int) (svc : String) : Option Int := do
  let sz ← _get_service_storage_size values svc
  pure (if sz != 0 then acc + sz else acc)

/-- Embeds `_validate_storage_config`. -/
def _validate_storage_config (values : Val) (st : VState) : Option VState := do
  let globalCfg ← pyGetD values "global" (.vmap [])
  let sc ← pyGetD globalCfg "storageClass" (.vstr "")
  let st := if !sc.truthy then st.addWarning storageClassMsg else st
  let withVllm ← subHasKey values "ai" "vllm"
  let services := if withVllm then ["postgresql", "redis", "vllm"]
    else ["postgresql", "redis"]
  let total ← services.foldlM (addServiceStorage values) (0 : Int)
  pure (if total > 100 * 1024 then st.addWarning (totalStorageMsg total) else st)

/-! The per-file driver `validate_helm_values` and the structural
validators.  Opening and parsing a file is modelled by an explicit input:
`Except String Val` for a values file (`error e` is a caught parse failure
with exception text `e`), `KindSrc` for the Kind cluster configuration. -/

/-- Embeds one iteration of the required-sections loop of
`validate_helm_values`. -/
def requiredSectionCheck (values : Val) (fname : String) (st : VState) (sec : String) :
    Option VState := do
  let c ← pyContains values sec
  pure (if !c then st.addError (missingSectionMsg sec fname) else st)

/-- Embeds `if section in values: self._validate_xxx(values[section])`. -/
def dispatchSection (values : Val) (k : String) (f : Val → VState → Option VState)
    (st : VState) : Option VState := do
  let c ← pyContains values k
  if c then do
    let a ← pySub values k
    f a st
  else pure st

/-- Embeds `validate_helm_values`; the returned `Bool` is the function's
`return len(self.errors) == 0`. -/
def validate_helm_values (fname : String) (parsed : Except String Val) (st : VState) :
    Option (VState × Bool) :=
  match parsed with
  | .error e => some (st.addError (parseFailMsg fname e), false)
  | .ok values => do
    let st ← (["api", "postgresql", "redis"]).foldlM (requiredSectionCheck values fname) st
    let st ← dispatchSection values "api" _validate_api_config st
    let st ← dispatchSection values "postgresql" _validate_database_config st
    let st ← dispatchSection values "ai" _validate_ai_config st
    let st ← _validate_resource_limits values st
    let st ← _validate_storage_config values st
    pure (st, st.errors.isEmpty)

/-- Embeds the required-files loop body of `validate_chart_structure`. -/
def chartFileCheck (chartDir : String) (fs : List String) (st : VState) (name : String) :
    VState :=
  let path := chartDir ++ "/" ++ name
  if !fs.contains path then st.addError ("Missing required file: " ++ path) else st

/-- Embeds the template-files loop body of `validate_chart_structure`. -/
def templateFileCheck (templatesDir : String) (fs : List String) (st : VState) (t : String) :
    VState :=
  if !fs.contains (templatesDir ++ "/" ++ t) then
    st.addWarning ("Missing template file: " ++ t)
  else st

/-- Embeds `validate_chart_structure`; the filesystem is modelled by the
list `fs` of existing paths, `chartDir` is `self.helm_chart_dir`. -/
def validate_chart_structure (fs : List String) (chartDir : String) (st : VState) :
    VState × Bool :=
  let st := (["Chart.yaml", "values.yaml", "values-development.yaml",
      "values-production.yaml"]).foldl (chartFileCheck chartDir fs) st
  let templatesDir := chartDir ++ "/templates"
  let st :=
    if !fs.contains templatesDir then st.addError "Missing templates directory"
    else (["deployment.yaml", "service.yaml", "configmap.yaml"]).foldl
      (templateFileCheck templatesDir fs) st
  (st, st.errors.isEmpty)

/-- Outcome of opening and parsing the Kind cluster configuration file. -/
inductive KindSrc where
  | missing
  | parseFail (e : String)
  | doc (config : Val)

/-- Embeds the list-comprehension predicate `n.get('role') == 'control-plane'`. -/
def nodeIsControlPlane (n : Val) : Option Bool := do
  let r ← pyGetD n "role" .vnull
  pure (valEqStrB r "control-plane")

/-- Embeds the `extraPortMappings` loop body of `validate_kind_config`. -/
def nodePortCheck (st : VState) (n : Val) : Option VState := do
  let cp ← nodeIsControlPlane n
  if cp then do
    let pm ← pyGetD n "extraPortMappings" (.vseq [])
    pure (if !pm.truthy then st.addWarning noPortMappingsMsg else st)
  else pure st

/-- Embeds `validate_kind_config`; the returned `Bool` is
`return len(self.errors) == 0` (`false` on the two short-circuit paths).
Iterating over a non-list `nodes` value is a crash unless it is an empty
string or empty dict (over which Python iterates zero times). -/
def validate_kind_config (src : KindSrc) (st : VState) : Option (VState × Bool) :=
  match src with
  | .missing => some (st.addError kindMissingMsg, false)
  | .parseFail e => some (st.addError (kindParseFailMsg e), false)
  | .doc config => do
    let kv ← pyGetD config "kind" .vnull
    let st := if !valEqStrB kv "Cluster" then st.addError kindTypeMsg else st
    let nodesV ← pyGetD config "nodes" (.vseq [])
    let st := if !nodesV.truthy then st.addError noNodesMsg else st
    let nodes ← (match nodesV with
      | .vseq l => some l
      | .vstr s => if s == "" then some [] else none
      | .vmap l => if l.isEmpty then some [] else none
      | _ => none)
    let cpFlags ← nodes.mapM nodeIsControlPlane
    let st := if !cpFlags.any id then st.addError noControlPlaneMsg else st
    let st ← nodes.foldlM nodePortCheck st
    pure (st, st.errors.isEmpty)

/-! The driver: exit-code selection of `main`. -/

/-- Embeds the exit-code selection of `main`: exit 1 when
`has_errors or (args.strict and has_warnings)`, else exit 0. -/
def exitCode (strict : Bool) (st : VState) : Nat :=
  if !st.errors.isEmpty || (strict && !st.warnings.isEmpty) then 1 else 0

/-- Embeds one iteration of the values-file loop of `main`. -/
def runValuesFile (st : VState) (f : String × Except String Val) : Option VState := do
  let r ← validate_helm_values f.1 f.2 st
  pure r.1

/-- Embeds a whole run of `main`: chart-structure check, Kind-config check,
then every selected values file in order, then the exit code.  The list
`files` carries the name and parse outcome of each values file that the
chosen invocation mode selects. -/
def mainRun (fs : List String) (chartDir : String) (kindSrc : KindSrc)
    (files : List (String × Except String Val)) (strict : Bool) :
    Option (VState × Nat) := do
  let st1 := (validate_chart_structure fs chartDir ⟨[], []⟩).1
  let r2 ← validate_kind_config kindSrc st1
  let st3 ← files.foldlM runValuesFile r2.1
  pure (st3, exitCode strict st3)

/-! Append-only structure of the findings state.  `FindingsExtend st st'`
says the findings recorded in `st` are still present, in order and
unchanged, at the front of `st'`. -/

/-- Prior findings are a prefix of the later findings, severities kept. -/
def FindingsExtend (st st' : VState) : Prop :=
  st.errors <+: st'.errors ∧ st.warnings <+: st'.warnings

/-! Claim-side comparison definitions and concrete configuration
documents used by the theorems below. -/

/-- A values document that produces no Error of its own. -/
def cleanDoc : Val :=
  .vmap [("api", .vmap []), ("postgresql", .vmap []), ("redis", .vmap [])]

/-- A filesystem with the full expected chart structure under `c`. -/
def fullChartFs : List String :=
  ["c/Chart.yaml", "c/values.yaml", "c/values-development.yaml", "c/values-production.yaml",
   "c/templates", "c/templates/deployment.yaml", "c/templates/service.yaml",
   "c/templates/configmap.yaml"]

/-- A Kind cluster document with one control-plane node and no port
mappings. -/
def kindDocGood : Val :=
  .vmap [("kind", .vstr "Cluster"),
         ("nodes", .vseq [.vmap [("role", .vstr "control-plane")]])]

/-- A postgresql section whose persistence size is the string `0`. -/
def dbZeroSize : Val :=
  .vmap [("primary", .vmap [("persistence", .vmap
    [("enabled", .vbool true), ("size", .vstr "0")])])]

/-- A postgresql section whose persistence size is the string `10Gi`. -/
def dbTenGi : Val :=
  .vmap [("primary", .vmap [("persistence", .vmap
    [("enabled", .vbool true), ("size", .vstr "10Gi")])])]

/-- Resource maps with CPU limits at 5x requests and memory at 1x. -/
def res5x : Val :=
  .vmap [("requests", .vmap [("cpu", .vstr "100m"), ("memory", .vstr "512Mi")]),
         ("limits", .vmap [("cpu", .vstr "500m"), ("memory", .vstr "512Mi")])]

/-- Claim-side key-presence test: only a mapping can contain a section. -/
def hasKeyB : Val → String → Bool
  | .vmap l, k => l.any (fun p => p.1 == k)
  | _, _ => false

/-- Claim-side safe accessor: look up `k`, with default `d` when `v` is not
a mapping or lacks the key. -/
def specGet (v : Val) (k : String) (d : Val) : Val :=
  match v with
  | .vmap l => (lookupKV l k).getD d
  | _ => d

/-- Claim-side CPU/memory request amounts of one `resources` map; a service
lacking a requests block contributes 0. -/
def specReqOfResources (resources : Val) : Int × Int :=
  if hasKeyB resources "requests" then
    ((_parse_cpu_value (specGet (specGet resources "requests" .vnull) "cpu"
        (.vstr "0"))).getD 0,
     (_parse_memory_size (specGet (specGet resources "requests" .vnull) "memory"
        (.vstr "0"))).getD 0)
  else (0, 0)

/-- Claim-side contribution of a top-level service (`api`, `frontend`). -/
def specTopContribution (values : Val) (svc : String) : Int × Int :=
  if hasKeyB values svc then
    specReqOfResources (specGet (specGet values svc .vnull) "resources" (.vmap []))
  else (0, 0)

/-- Claim-side contribution of `postgresql.primary` / `redis.master`. -/
def specSubContribution (values : Val) (svc sub : String) : Int × Int :=
  if hasKeyB values svc && hasKeyB (specGet values svc .vnull) sub then
    specReqOfResources (specGet (specGet (specGet values svc .vnull) sub .vnull)
      "resources" (.vmap []))
  else (0, 0)

/-- Claim-side totals: the sum over exactly api, frontend,
postgresql.primary and redis.master. -/
def specTotals (values : Val) : Int × Int :=
  ((specTopContribution values "api").1 + (specTopContribution values "frontend").1
     + (specSubContribution values "postgresql" "primary").1
     + (specSubContribution values "redis" "master").1,
   (specTopContribution values "api").2 + (specTopContribution values "frontend").2
     + (specSubContribution values "postgresql" "primary").2
     + (specSubContribution values "redis" "master").2)

/-- Requests totalling 5000 millicores and 4096 MB. -/
def lim5000 : Val := .vmap [
  ("api", .vmap [("resources", .vmap [("requests",
    .vmap [("cpu", .vstr "2000m"), ("memory", .vstr "1Gi")])])]),
  ("frontend", .vmap [("resources", .vmap [("requests",
    .vmap [("cpu", .vstr "1000m"), ("memory", .vstr "1Gi")])])]),
  ("postgresql", .vmap [("primary", .vmap [("resources", .vmap [("requests",
    .vmap [("cpu", .vstr "1000m"), ("memory", .vstr "1Gi")])])])]),
  ("redis", .vmap [("master", .vmap [("resources", .vmap [("requests",
    .vmap [("cpu", .vstr "1000m"), ("memory", .vstr "1Gi")])])])])]

/-- Requests totalling 3000 millicores and 3072 MB. -/
def lim3000 : Val := .vmap [
  ("api", .vmap [("resources", .vmap [("requests",
    .vmap [("cpu", .vstr "1000m"), ("memory", .vstr "1Gi")])])]),
  ("frontend", .vmap [("resources", .vmap [("requests",
    .vmap [("cpu", .vstr "1000m"), ("memory", .vstr "1Gi")])])]),
  ("postgresql", .vmap [("primary", .vmap [("resources", .vmap [("requests",
    .vmap [("cpu", .vstr "1000m"), ("memory", .vstr "1Gi")])])])])]

/-- Claim-side global storage class value. -/
def specStorageClass (values : Val) : Val :=
  specGet (specGet values "global" (.vmap [])) "storageClass" (.vstr "")

/-- Claim-side persistent-volume size (MB) of one service: contributes only
when its persistence is enabled and its size parses. -/
def specStorageSize (values : Val) (service : String) : Int :=
  match persistencePath service with
  | none => 0
  | some (k1, k2) =>
    let p := specGet (specGet (specGet values k1 (.vmap [])) k2 (.vmap []))
      "persistence" (.vmap [])
    if (specGet p "enabled" .vnull).truthy then
      match _parse_storage_size (specGet p "size" (.vstr "")) with
      | some r => r.getD 0
      | none => 0
    else 0

/-- The condition under which the code includes the model-serving service:
the `ai` section exists and carries a `vllm` key (its `enabled` flag is not
consulted). -/
def specHasVllm (values : Val) : Bool :=
  hasKeyB values "ai" && hasKeyB (specGet values "ai" .vnull) "vllm"

/-- Claim-side total storage in MB. -/
def specStorageTotal (values : Val) : Int :=
  if specHasVllm values then
    specStorageSize values "postgresql" + specStorageSize values "redis"
      + specStorageSize values "vllm"
  else specStorageSize values "postgresql" + specStorageSize values "redis"

/-- A values document whose vllm service is explicitly disabled but whose
vllm persistence holds 200Gi, with a storage class set and no database or
cache persistence. -/
def vllmDisabledVals : Val :=
  .vmap [("global", .vmap [("storageClass", .vstr "standard")]),
         ("ai", .vmap [("vllm", .vmap [("enabled", .vbool false),
           ("persistence", .vmap [("enabled", .vbool true),
             ("size", .vstr "200Gi")])])])]

/-- Claim-side control-plane-role test for one node. -/
def specIsCP (n : Val) : Bool :=
  valEqStrB (specGet n "role" .vnull) "control-plane"

/-- Claim-side absent-port-mappings test for one node. -/
def specNoPM (n : Val) : Bool :=
  !(specGet n "extraPortMappings" (.vseq [])).truthy

/-- Claim-side findings of the document path of `validate_kind_config`. -/
def kindDocFindings (kv : Val) (ns : List Val) (st : VState) : VState :=
  ⟨st.errors ++ (if valEqStrB kv "Cluster" then [] else [kindTypeMsg])
             ++ (if ns.isEmpty then [noNodesMsg] else [])
             ++ (if ns.any specIsCP then [] else [noControlPlaneMsg]),
   st.warnings ++ (ns.filter (fun n => specIsCP n && specNoPM n)).map
     (fun _ => noPortMappingsMsg)⟩

theorem FindingsExtend.refl (st : VState) : FindingsExtend st st :=
  ⟨List.prefix_rfl, List.prefix_rfl⟩

theorem FindingsExtend.trans {s t u : VState}
    (h1 : FindingsExtend s t) (h2 : FindingsExtend t u) : FindingsExtend s u :=
  ⟨h1.1.trans h2.1, h1.2.trans h2.2⟩

theorem FindingsExtend.addError {s t : VState} (h : FindingsExtend s t) (m : String) :
    FindingsExtend s (t.addError m) :=
  ⟨h.1.trans (List.prefix_append _ _), h.2⟩

theorem FindingsExtend.addWarning {s t : VState} (h : FindingsExtend s t) (m : String) :
    FindingsExtend s (t.addWarning m) :=
  ⟨h.1, h.2.trans (List.prefix_append _ _)⟩

theorem FindingsExtend.errors_ne_nil {s t : VState}
    (h : FindingsExtend s t) (hs : s.errors ≠ []) : t.errors ≠ [] := by
  obtain ⟨l, hl⟩ := h.1
  intro ht
  rw [← hl] at ht
  exact hs (List.append_eq_nil.mp ht).1

/-- Strip the `Option` `pure` on a leaf of a validator run. -/
theorem pure_some {α : Type} {a b : α} (h : (pure a : Option α) = some b) : a = b := by
  simpa using h

/-- Folding a per-step extending function extends. -/
theorem foldl_extends {α : Type} (f : VState → α → VState)
    (hf : ∀ st a, FindingsExtend st (f st a)) :
    ∀ (l : List α) (st : VState), FindingsExtend st (l.foldl f st)
  | [], _ => FindingsExtend.refl _
  | a :: l, st => (hf st a).trans (foldl_extends f hf l (f st a))

/-- Monadic folding of a per-step extending function extends. -/
theorem foldlM_extends {α : Type} (f : VState → α → Option VState)
    (hf : ∀ st a st', f st a = some st' → FindingsExtend st st') :
    ∀ (l : List α) (st st' : VState), List.foldlM f st l = some st' →
      FindingsExtend st st' := by
  intro l
  induction l with
  | nil =>
    intro st st' h
    simp only [List.foldlM_nil] at h
    exact pure_some h ▸ FindingsExtend.refl st
  | cons a l ih =>
    intro st st' h
    rw [List.foldlM_cons] at h
    obtain ⟨st1, h1, h2⟩ := Option.bind_eq_some.mp h
    exact (hf st a st1 h1).trans (ih st1 st' h2)

/-- A `ratioCpuCheck` call only appends findings. -/
theorem ratioCpuCheck_extends {requests limits : Val} {service : String} {st st' : VState}
    (h : ratioCpuCheck requests limits service st = some st') : FindingsExtend st st' := by
  unfold ratioCpuCheck at h
  obtain ⟨both, -, h⟩ := Option.bind_eq_some.mp h
  split at h
  · obtain ⟨rv, -, h⟩ := Option.bind_eq_some.mp h
    obtain ⟨reqCpu, -, h⟩ := Option.bind_eq_some.mp h
    obtain ⟨lv, -, h⟩ := Option.bind_eq_some.mp h
    obtain ⟨limCpu, -, h⟩ := Option.bind_eq_some.mp h
    split at h
    · obtain ⟨ls, -, h⟩ := Option.bind_eq_some.mp h
      obtain ⟨rs, -, h⟩ := Option.bind_eq_some.mp h
      cases pure_some h
      exact (FindingsExtend.refl st).addError _
    · split at h <;> cases pure_some h
      · exact (FindingsExtend.refl st).addWarning _
      · exact FindingsExtend.refl st
  · cases pure_some h
    exact FindingsExtend.refl st

/-- A `ratioMemCheck` call only appends findings. -/
theorem ratioMemCheck_extends {requests limits : Val} {service : String} {st st' : VState}
    (h : ratioMemCheck requests limits service st = some st') : FindingsExtend st st' := by
  unfold ratioMemCheck at h
  obtain ⟨both, -, h⟩ := Option.bind_eq_some.mp h
  split at h
  · obtain ⟨rv, -, h⟩ := Option.bind_eq_some.mp h
    obtain ⟨reqMem, -, h⟩ := Option.bind_eq_some.mp h
    obtain ⟨lv, -, h⟩ := Option.bind_eq_some.mp h
    obtain ⟨limMem, -, h⟩ := Option.bind_eq_some.mp h
    split at h
    · obtain ⟨ls, -, h⟩ := Option.bind_eq_some.mp h
      obtain ⟨rs, -, h⟩ := Option.bind_eq_some.mp h
      cases pure_some h
      exact (FindingsExtend.refl st).addError _
    · split at h <;> cases pure_some h
      · exact (FindingsExtend.refl st).addWarning _
      · exact FindingsExtend.refl st
  · cases pure_some h
    exact FindingsExtend.refl st

/-- A `_validate_resource_ratio` call only appends findings. -/
theorem ratio_extends {resources : Val} {service : String} {st st' : VState}
    (h : _validate_resource_ratio resources service st = some st') :
    FindingsExtend st st' := by
  unfold _validate_resource_ratio at h
  obtain ⟨requests, -, h⟩ := Option.bind_eq_some.mp h
  obtain ⟨limits, -, h⟩ := Option.bind_eq_some.mp h
  obtain ⟨st1, h1, h2⟩ := Option.bind_eq_some.mp h
  exact (ratioCpuCheck_extends h1).trans (ratioMemCheck_extends h2)

theorem apiReplicaCheck_extends {api : Val} {st st' : VState}
    (h : apiReplicaCheck api st = some st') : FindingsExtend st st' := by
  unfold apiReplicaCheck at h
  obtain ⟨rc, -, h⟩ := Option.bind_eq_some.mp h
  obtain ⟨lt, -, h⟩ := Option.bind_eq_some.mp h
  cases pure_some h
  split
  · exact (FindingsExtend.refl st).addError _
  · exact FindingsExtend.refl st

theorem apiRatioCheck_extends {api : Val} {st st' : VState}
    (h : apiRatioCheck api st = some st') : FindingsExtend st st' := by
  unfold apiRatioCheck at h
  obtain ⟨resources, -, h⟩ := Option.bind_eq_some.mp h
  obtain ⟨both, -, h⟩ := Option.bind_eq_some.mp h
  split at h
  · exact ratio_extends h
  · cases pure_some h
    exact FindingsExtend.refl st

theorem apiHealthCheck_extends {api : Val} {st st' : VState}
    (h : apiHealthCheck api st = some st') : FindingsExtend st st' := by
  unfold apiHealthCheck at h
  obtain ⟨en, -, h⟩ := Option.bind_eq_some.mp h
  split at h
  · obtain ⟨hc, -, h⟩ := Option.bind_eq_some.mp h
    obtain ⟨p, -, h⟩ := Option.bind_eq_some.mp h
    cases pure_some h
    split
    · exact (FindingsExtend.refl st).addWarning _
    · exact FindingsExtend.refl st
  · cases pure_some h
    exact FindingsExtend.refl st

/-- A `_validate_api_config` call only appends findings. -/
theorem api_extends {api : Val} {st st' : VState}
    (h : _validate_api_config api st = some st') : FindingsExtend st st' := by
  unfold _validate_api_config at h
  obtain ⟨st1, h1, h⟩ := Option.bind_eq_some.mp h
  obtain ⟨st2, h2, h3⟩ := Option.bind_eq_some.mp h
  exact ((apiReplicaCheck_extends h1).trans (apiRatioCheck_extends h2)).trans
    (apiHealthCheck_extends h3)

theorem dbPersistenceCheck_extends {db : Val} {st st' : VState}
    (h : dbPersistenceCheck db st = some st') : FindingsExtend st st' := by
  unfold dbPersistenceCheck at h
  obtain ⟨cond, -, h⟩ := Option.bind_eq_some.mp h
  split at h
  · obtain ⟨p, -, h⟩ := Option.bind_eq_some.mp h
    obtain ⟨persistence, -, h⟩ := Option.bind_eq_some.mp h
    obtain ⟨en, -, h⟩ := Option.bind_eq_some.mp h
    split at h
    · obtain ⟨size, -, h⟩ := Option.bind_eq_some.mp h
      obtain ⟨bad, -, h⟩ := Option.bind_eq_some.mp h
      cases pure_some h
      split
      · exact (FindingsExtend.refl st).addError _
      · exact FindingsExtend.refl st
    · cases pure_some h
      exact FindingsExtend.refl st
  · cases pure_some h
    exact FindingsExtend.refl st

theorem dbAuthCheck_extends {db : Val} {st st' : VState}
    (h : dbAuthCheck db st = some st') : FindingsExtend st st' := by
  unfold dbAuthCheck at h
  obtain ⟨auth, -, h⟩ := Option.bind_eq_some.mp h
  obtain ⟨dbname, -, h⟩ := Option.bind_eq_some.mp h
  obtain ⟨password, -, h⟩ := Option.bind_eq_some.mp h
  cases pure_some h
  split <;> split <;>
    first
      | exact ((FindingsExtend.refl st).addWarning _).addWarning _
      | exact (FindingsExtend.refl st).addWarning _
      | exact FindingsExtend.refl st

/-- A `_validate_database_config` call only appends findings. -/
theorem db_extends {db : Val} {st st' : VState}
    (h : _validate_database_config db st = some st') : FindingsExtend st st' := by
  unfold _validate_database_config at h
  obtain ⟨st1, h1, h2⟩ := Option.bind_eq_some.mp h
  exact (dbPersistenceCheck_extends h1).trans (dbAuthCheck_extends h2)

theorem vllmMemCheck_extends {resources : Val} {st st' : VState}
    (h : vllmMemCheck resources st = some st') : FindingsExtend st st' := by
  unfold vllmMemCheck at h
  obtain ⟨hasReq, -, h⟩ := Option.bind_eq_some.mp h
  split at h
  · obtain ⟨req, -, h⟩ := Option.bind_eq_some.mp h
    obtain ⟨memory, -, h⟩ := Option.bind_eq_some.mp h
    split at h
    · obtain ⟨m, -, h⟩ := Option.bind_eq_some.mp h
      cases pure_some h
      split
      · exact (FindingsExtend.refl st).addWarning _
      · exact FindingsExtend.refl st
    · cases pure_some h
      exact FindingsExtend.refl st
  · cases pure_some h
    exact FindingsExtend.refl st

theorem aiVllmCheck_extends {ai : Val} {st st' : VState}
    (h : aiVllmCheck ai st = some st') : FindingsExtend st st' := by
  unfold aiVllmCheck at h
  obtain ⟨en, -, h⟩ := Option.bind_eq_some.mp h
  split at h
  · obtain ⟨vllm, -, h⟩ := Option.bind_eq_some.mp h
    obtain ⟨model, -, h⟩ := Option.bind_eq_some.mp h
    obtain ⟨resources, -, h⟩ := Option.bind_eq_some.mp h
    obtain ⟨st1, h1, h⟩ := Option.bind_eq_some.mp h
    obtain ⟨persistence, -, h⟩ := Option.bind_eq_some.mp h
    obtain ⟨pen, -, h⟩ := Option.bind_eq_some.mp h
    cases pure_some h
    have base : FindingsExtend st st1 := by
      refine FindingsExtend.trans ?_ (vllmMemCheck_extends h1)
      split
      · exact (FindingsExtend.refl st).addError _
      · exact FindingsExtend.refl st
    split
    · exact base.addWarning _
    · exact base
  · cases pure_some h
    exact FindingsExtend.refl st

theorem aiAudioCheck_extends {ai : Val} {st st' : VState}
    (h : aiAudioCheck ai st = some st') : FindingsExtend st st' := by
  unfold aiAudioCheck at h
  obtain ⟨en, -, h⟩ := Option.bind_eq_some.mp h
  split at h
  · obtain ⟨audio, -, h⟩ := Option.bind_eq_some.mp h
    obtain ⟨env1, -, h⟩ := Option.bind_eq_some.mp h
    obtain ⟨dm, -, h⟩ := Option.bind_eq_some.mp h
    cases pure_some h
    split
    · exact (FindingsExtend.refl st).addWarning _
    · exact FindingsExtend.refl st
  · cases pure_some h
    exact FindingsExtend.refl st

/-- A `_validate_ai_config` call only appends findings. -/
theorem ai_extends {ai : Val} {st st' : VState}
    (h : _validate_ai_config ai st = some st') : FindingsExtend st st' := by
  unfold _validate_ai_config at h
  obtain ⟨st1, h1, h2⟩ := Option.bind_eq_some.mp h
  exact (aiVllmCheck_extends h1).trans (aiAudioCheck_extends h2)

/-- A `_validate_resource_limits` call only appends findings. -/
theorem limits_extends {values : Val} {st st' : VState}
    (h : _validate_resource_limits values st = some st') : FindingsExtend st st' := by
  unfold _validate_resource_limits at h
  obtain ⟨a1, -, h⟩ := Option.bind_eq_some.mp h
  obtain ⟨a2, -, h⟩ := Option.bind_eq_some.mp h
  obtain ⟨a3, -, h⟩ := Option.bind_eq_some.mp h
  obtain ⟨a4, -, h⟩ := Option.bind_eq_some.mp h
  cases pure_some h
  split <;> split <;>
    first
      | exact ((FindingsExtend.refl st).addWarning _).addWarning _
      | exact (FindingsExtend.refl st).addWarning _
      | exact FindingsExtend.refl st

/-- A `_validate_storage_config` call only appends findings. -/
theorem storage_extends {values : Val} {st st' : VState}
    (h : _validate_storage_config values st = some st') : FindingsExtend st st' := by
  unfold _validate_storage_config at h
  obtain ⟨globalCfg, -, h⟩ := Option.bind_eq_some.mp h
  obtain ⟨sc, -, h⟩ := Option.bind_eq_some.mp h
  obtain ⟨withVllm, -, h⟩ := Option.bind_eq_some.mp h
  obtain ⟨total, -, h⟩ := Option.bind_eq_some.mp h
  cases pure_some h
  split <;> split <;>
    first
      | exact ((FindingsExtend.refl st).addWarning _).addWarning _
      | exact (FindingsExtend.refl st).addWarning _
      | exact FindingsExtend.refl st

theorem dispatchSection_extends {values : Val} {k : String}
    {f : Val → VState → Option VState} {st st' : VState}
    (hf : ∀ a s s', f a s = some s' → FindingsExtend s s')
    (h : dispatchSection values k f st = some st') : FindingsExtend st st' := by
  unfold dispatchSection at h
  obtain ⟨c, -, h⟩ := Option.bind_eq_some.mp h
  split at h
  · obtain ⟨a, -, h⟩ := Option.bind_eq_some.mp h
    exact hf a st st' h
  · cases pure_some h
    exact FindingsExtend.refl st

/-- A `validate_helm_values` call only appends findings, and its returned
boolean reports emptiness of the cumulative error list at return. -/
theorem helm_run {fname : String} {parsed : Except String Val} {st st' : VState} {b : Bool}
    (h : validate_helm_values fname parsed st = some (st', b)) :
    FindingsExtend st st' ∧ b = st'.errors.isEmpty := by
  cases parsed with
  | error e =>
    simp only [validate_helm_values, Option.some.injEq, Prod.mk.injEq] at h
    obtain ⟨h1, h2⟩ := h
    subst h1
    refine ⟨(FindingsExtend.refl st).addError _, ?_⟩
    simp [VState.addError, ← h2]
  | ok values =>
    simp only [validate_helm_values] at h
    obtain ⟨st1, h1, h⟩ := Option.bind_eq_some.mp h
    obtain ⟨st2, h2, h⟩ := Option.bind_eq_some.mp h
    obtain ⟨st3, h3, h⟩ := Option.bind_eq_some.mp h
    obtain ⟨st4, h4, h⟩ := Option.bind_eq_some.mp h
    obtain ⟨st5, h5, h⟩ := Option.bind_eq_some.mp h
    obtain ⟨st6, h6, h⟩ := Option.bind_eq_some.mp h
    have hp := pure_some h
    rw [Prod.mk.injEq] at hp
    obtain ⟨h7, h8⟩ := hp
    subst h7
    have e1 : FindingsExtend st st1 := by
      refine foldlM_extends _ ?_ _ _ _ h1
      intro s a s' hs
      unfold requiredSectionCheck at hs
      obtain ⟨c, -, hs⟩ := Option.bind_eq_some.mp hs
      cases pure_some hs
      split
      · exact (FindingsExtend.refl s).addError _
      · exact FindingsExtend.refl s
    have e2 := dispatchSection_extends (fun a s s' hh => api_extends hh) h2
    have e3 := dispatchSection_extends (fun a s s' hh => db_extends hh) h3
    have e4 := dispatchSection_extends (fun a s s' hh => ai_extends hh) h4
    have e5 := limits_extends h5
    have e6 := storage_extends h6
    exact ⟨((((e1.trans e2).trans e3).trans e4).trans e5).trans e6, h8.symm⟩

/-- A `validate_chart_structure` call only appends findings, and its
returned boolean reports emptiness of the cumulative error list. -/
theorem chart_run (fs : List String) (chartDir : String) (st : VState) :
    FindingsExtend st (validate_chart_structure fs chartDir st).1 ∧
      (validate_chart_structure fs chartDir st).2 =
        (validate_chart_structure fs chartDir st).1.errors.isEmpty := by
  refine ⟨?_, rfl⟩
  have step1 : ∀ (s : VState) (a : String), FindingsExtend s (chartFileCheck chartDir fs s a) := by
    intro s a
    simp only [chartFileCheck]
    split
    · exact (FindingsExtend.refl s).addError _
    · exact FindingsExtend.refl s
  have step2 : ∀ (s : VState) (a : String),
      FindingsExtend s (templateFileCheck (chartDir ++ "/templates") fs s a) := by
    intro s a
    unfold templateFileCheck
    split
    · exact (FindingsExtend.refl s).addWarning _
    · exact FindingsExtend.refl s
  unfold validate_chart_structure
  simp only []
  refine FindingsExtend.trans (foldl_extends _ step1
    (["Chart.yaml", "values.yaml", "values-development.yaml",
      "values-production.yaml"]) st) ?_
  split
  · exact (FindingsExtend.refl _).addError _
  · exact foldl_extends _ step2 _ _

theorem nodePortCheck_extends {st : VState} {n : Val} {st' : VState}
    (h : nodePortCheck st n = some st') : FindingsExtend st st' := by
  unfold nodePortCheck at h
  obtain ⟨cp, -, h⟩ := Option.bind_eq_some.mp h
  split at h
  · obtain ⟨pm, -, h⟩ := Option.bind_eq_some.mp h
    cases pure_some h
    split
    · exact (FindingsExtend.refl st).addWarning _
    · exact FindingsExtend.refl st
  · cases pure_some h
    exact FindingsExtend.refl st

/-- A `validate_kind_config` call only appends findings, and its returned
boolean reports emptiness of the cumulative error list at return. -/
theorem kind_run {src : KindSrc} {st st' : VState} {b : Bool}
    (h : validate_kind_config src st = some (st', b)) :
    FindingsExtend st st' ∧ b = st'.errors.isEmpty := by
  cases src with
  | missing =>
    simp only [validate_kind_config, Option.some.injEq, Prod.mk.injEq] at h
    obtain ⟨h1, h2⟩ := h
    subst h1
    refine ⟨(FindingsExtend.refl st).addError _, ?_⟩
    simp [VState.addError, ← h2]
  | parseFail e =>
    simp only [validate_kind_config, Option.some.injEq, Prod.mk.injEq] at h
    obtain ⟨h1, h2⟩ := h
    subst h1
    refine ⟨(FindingsExtend.refl st).addError _, ?_⟩
    simp [VState.addError, ← h2]
  | doc config =>
    simp only [validate_kind_config] at h
    obtain ⟨kv, -, h⟩ := Option.bind_eq_some.mp h
    obtain ⟨nodesV, -, h⟩ := Option.bind_eq_some.mp h
    obtain ⟨nodes, -, h⟩ := Option.bind_eq_some.mp h
    obtain ⟨cpFlags, -, h⟩ := Option.bind_eq_some.mp h
    obtain ⟨st4, h4, h⟩ := Option.bind_eq_some.mp h
    have hp := pure_some h
    rw [Prod.mk.injEq] at hp
    obtain ⟨h7, h8⟩ := hp
    subst h7
    refine ⟨?_, h8.symm⟩
    refine FindingsExtend.trans ?_ (foldlM_extends _ (fun s a s' hh => nodePortCheck_extends hh) _ _ _ h4)
    split <;> split <;> split <;>
      first
        | exact (((FindingsExtend.refl st).addError _).addError _).addError _
        | exact ((FindingsExtend.refl st).addError _).addError _
        | exact (FindingsExtend.refl st).addError _
        | exact FindingsExtend.refl st

/-! Small auxiliary lemmas. -/

theorem isEmpty_false_of_ne {l : List String} (h : l ≠ []) : l.isEmpty = false := by
  cases l
  · exact absurd rfl h
  · rfl

/-- Characterisation of the exit-code selection. -/
theorem exitCode_spec (strict : Bool) (st : VState) :
    (exitCode strict st = 1 ↔ (st.errors ≠ [] ∨ (strict = true ∧ st.warnings ≠ []))) ∧
    (exitCode strict st = 0 ↔ (st.errors = [] ∧ (strict = true → st.warnings = []))) := by
  unfold exitCode
  by_cases he : st.errors = [] <;> by_cases hw : st.warnings = [] <;> cases strict <;>
    simp [he, hw, List.isEmpty_iff, isEmpty_false_of_ne]

/-- C6: for every validation run, the process exits with code 1 iff at least
one Error was recorded, or `--strict` was set and at least one Warning was
recorded; in every other case it exits with code 0. -/
theorem c6_exit_status (fs : List String) (chartDir : String) (kindSrc : KindSrc)
    (files : List (String × Except String Val)) (strict : Bool) (st : VState) (code : Nat)
    (h : mainRun fs chartDir kindSrc files strict = some (st, code)) :
    (code = 1 ↔ (st.errors ≠ [] ∨ (strict = true ∧ st.warnings ≠ []))) ∧
    (code = 0 ↔ (st.errors = [] ∧ (strict = true → st.warnings = []))) := by
  unfold mainRun at h
  obtain ⟨r2, -, h⟩ := Option.bind_eq_some.mp h
  obtain ⟨st3, -, h⟩ := Option.bind_eq_some.mp h
  have hp := pure_some h
  rw [Prod.mk.injEq] at hp
  obtain ⟨h1, h2⟩ := hp
  subst h1
  subst h2
  exact exitCode_spec strict _

/-- C9: every validator operation only appends to the errors and warnings
sequences: after any completed validator call, the prior errors list is a
prefix of the new errors list and the prior warnings list is a prefix of the
new warnings list, so no recorded finding is removed, reordered, or has its
severity or message changed. -/
theorem c9_findings_append_only :
    (∀ api st st', _validate_api_config api st = some st' → FindingsExtend st st') ∧
    (∀ db st st', _validate_database_config db st = some st' → FindingsExtend st st') ∧
    (∀ ai st st', _validate_ai_config ai st = some st' → FindingsExtend st st') ∧
    (∀ resources service st st',
      _validate_resource_ratio resources service st = some st' → FindingsExtend st st') ∧
    (∀ values st st',
      _validate_resource_limits values st = some st' → FindingsExtend st st') ∧
    (∀ values st st',
      _validate_storage_config values st = some st' → FindingsExtend st st') ∧
    (∀ fname parsed st st' b,
      validate_helm_values fname parsed st = some (st', b) → FindingsExtend st st') ∧
    (∀ fs chartDir st, FindingsExtend st (validate_chart_structure fs chartDir st).1) ∧
    (∀ src st st' b,
      validate_kind_config src st = some (st', b) → FindingsExtend st st') :=
  ⟨fun _ _ _ h => api_extends h,
   fun _ _ _ h => db_extends h,
   fun _ _ _ h => ai_extends h,
   fun _ _ _ _ h => ratio_extends h,
   fun _ _ _ h => limits_extends h,
   fun _ _ _ h => storage_extends h,
   fun _ _ _ _ _ h => (helm_run h).1,
   fun fs chartDir st => (chart_run fs chartDir st).1,
   fun _ _ _ _ h => (kind_run h).1⟩

/-- Witness for C9: a concrete `validate_helm_values` run starting from a
non-empty findings state keeps the prior findings as a prefix. -/
theorem c9_witness : FindingsExtend ⟨["E0"], ["W0"]⟩
    ⟨["E0", missingSectionMsg "api" "values.yaml",
      missingSectionMsg "postgresql" "values.yaml",
      missingSectionMsg "redis" "values.yaml"], ["W0", storageClassMsg]⟩ :=
  c9_findings_append_only.2.2.2.2.2.2.1 "values.yaml" (.ok (.vmap [])) ⟨["E0"], ["W0"]⟩
    ⟨["E0", missingSectionMsg "api" "values.yaml",
      missingSectionMsg "postgresql" "values.yaml",
      missingSectionMsg "redis" "values.yaml"], ["W0", storageClassMsg]⟩ false (by decide)

/-- C10: the boolean returned by `validate_helm_values`,
`validate_chart_structure` and `validate_kind_config` reports whether the
validator's cumulative error list is empty at the moment of return — not
whether the file just validated produced errors — so the boolean is `false`
whenever any earlier validation had already appended an Error. -/
theorem c10_return_value :
    (∀ fname parsed st st' b, validate_helm_values fname parsed st = some (st', b) →
      ((b = true ↔ st'.errors = []) ∧ (st.errors ≠ [] → b = false))) ∧
    (∀ fs chartDir st,
      (((validate_chart_structure fs chartDir st).2 = true ↔
          (validate_chart_structure fs chartDir st).1.errors = []) ∧
        (st.errors ≠ [] → (validate_chart_structure fs chartDir st).2 = false))) ∧
    (∀ src st st' b, validate_kind_config src st = some (st', b) →
      ((b = true ↔ st'.errors = []) ∧ (st.errors ≠ [] → b = false))) := by
  refine ⟨?_, ?_, ?_⟩
  · intro fname parsed st st' b h
    obtain ⟨he, hb⟩ := helm_run h
    subst hb
    exact ⟨List.isEmpty_iff, fun hne => isEmpty_false_of_ne (he.errors_ne_nil hne)⟩
  · intro fs chartDir st
    obtain ⟨he, hb⟩ := chart_run fs chartDir st
    rw [hb]
    exact ⟨List.isEmpty_iff, fun hne => isEmpty_false_of_ne (he.errors_ne_nil hne)⟩
  · intro src st st' b h
    obtain ⟨he, hb⟩ := kind_run h
    subst hb
    exact ⟨List.isEmpty_iff, fun hne => isEmpty_false_of_ne (he.errors_ne_nil hne)⟩

/-- Witness for C10: validating a clean values file after an earlier Error
still returns `false` (the returned boolean can be `true` only when the
cumulative error list, here still holding the earlier Error, is empty). -/
theorem c10_witness :
    validate_helm_values "values.yaml" (.ok cleanDoc) ⟨["previous"], []⟩ =
      some (⟨["previous"], ["Database name not specified", storageClassMsg]⟩, false) ∧
    (false = true ↔ (["previous"] : List String) = []) :=
  ⟨by decide,
   (c10_return_value.1 "values.yaml" (.ok cleanDoc) ⟨["previous"], []⟩
     ⟨["previous"], ["Database name not specified", storageClassMsg]⟩ false (by decide)).1⟩

/-- Witness for C6: a strict run whose only finding is a warning exits 1. -/
theorem c6_witness :
    ([] : List String) ≠ [] ∨ (true = true ∧ ([noPortMappingsMsg] : List String) ≠ []) :=
  (c6_exit_status fullChartFs "c" (.doc kindDocGood) [] true
    ⟨[], [noPortMappingsMsg]⟩ 1 (by decide)).1.mp rfl

/-! Database storage-size check (claim C2). -/

/-- C2 counterexample: the size string `0` parses successfully to the
non-absent value `0`, yet the Error `Invalid database storage size` is
appended (the code tests Python truthiness of the parse result, which
conflates `None` with `0`). -/
theorem c2_counterexample :
    _parse_storage_size (.vstr "0") = some (some 0) ∧
    _validate_database_config dbZeroSize ⟨[], []⟩ =
      some ⟨["Invalid database storage size"], ["Database name not specified"]⟩ := by
  decide

/-- The `not size or not self._parse_storage_size(size)` condition holds iff
the size is falsy or the parse result is `None` or `0`. -/
theorem storageSizeBad_spec {size : Val} {bad : Bool} (h : storageSizeBad size = some bad) :
    (bad = true ↔ (size.truthy = false ∨ _parse_storage_size size = some none ∨
      _parse_storage_size size = some (some 0))) := by
  unfold storageSizeBad at h
  split at h
  · rename_i hc
    cases pure_some h
    simp only [Bool.not_eq_true'] at hc
    simp [hc]
  · rename_i hc
    obtain ⟨ps, hps, h⟩ := Option.bind_eq_some.mp h
    cases pure_some h
    have ht : size.truthy = true := by
      simpa using hc
    cases ps with
    | none => simp [hps, ht]
    | some n => simp [hps, ht, beq_iff_eq]

/-- C2 (amended): when database persistence is enabled, the Error
`Invalid database storage size` is appended iff the configured size is
falsy (absent or empty) or parses to a falsy result (`None` or `0`); for
sizes parsing to a nonzero value no Error is appended.  The auth warnings
are unchanged. -/
theorem c2_database_size_error (db p pers en size auth dbname password : Val)
    (bad : Bool) (st : VState)
    (hpp : subHasKey db "primary" "persistence" = some true)
    (hp : pySub db "primary" = some p)
    (hpe : pySub p "persistence" = some pers)
    (hen : pyGetD pers "enabled" .vnull = some en)
    (hent : en.truthy = true)
    (hsz : pyGetD pers "size" (.vstr "") = some size)
    (hbad : storageSizeBad size = some bad)
    (hauth : pyGetD db "auth" (.vmap []) = some auth)
    (hdbn : pyGetD auth "database" .vnull = some dbname)
    (hpw : pyGetD auth "postgresPassword" (.vstr "") = some password) :
    _validate_database_config db st = some
      ⟨st.errors ++ (if bad then ["Invalid database storage size"] else []),
       st.warnings ++ (if !dbname.truthy then ["Database name not specified"] else [])
                   ++ (if valEqStrB password "changeme" then
                       ["Default database password detected - change for production"]
                       else [])⟩ ∧
    (bad = true ↔ (size.truthy = false ∨ _parse_storage_size size = some none ∨
      _parse_storage_size size = some (some 0))) := by
  refine ⟨?_, storageSizeBad_spec hbad⟩
  unfold _validate_database_config dbPersistenceCheck dbAuthCheck
  simp only [Option.bind_eq_bind, hpp, hp, hpe, hen, hent, hsz, hbad, hauth, hdbn, hpw,
    Option.some_bind, Option.pure_def, eq_self_iff_true, if_true]
  by_cases hb : bad <;> by_cases hd : dbname.truthy <;>
    by_cases hw : valEqStrB password "changeme" <;>
      simp [hb, hd, hw, VState.addError, VState.addWarning]

/-- Witness for C2: size `0` yields the Error, size `10Gi` does not. -/
theorem c2_witness :
    _validate_database_config dbZeroSize ⟨["E"], []⟩ =
      some ⟨["E", "Invalid database storage size"], ["Database name not specified"]⟩ ∧
    _validate_database_config dbTenGi ⟨["E"], []⟩ =
      some ⟨["E"], ["Database name not specified"]⟩ := by
  constructor
  · have h := (c2_database_size_error dbZeroSize
      (.vmap [("persistence", .vmap [("enabled", .vbool true), ("size", .vstr "0")])])
      (.vmap [("enabled", .vbool true), ("size", .vstr "0")])
      (.vbool true) (.vstr "0") (.vmap []) .vnull (.vstr "") true ⟨["E"], []⟩
      rfl rfl rfl rfl rfl rfl rfl rfl rfl rfl).1
    rw [h]
    decide
  · have h := (c2_database_size_error dbTenGi
      (.vmap [("persistence", .vmap [("enabled", .vbool true), ("size", .vstr "10Gi")])])
      (.vmap [("enabled", .vbool true), ("size", .vstr "10Gi")])
      (.vbool true) (.vstr "10Gi") (.vmap []) .vnull (.vstr "") false ⟨["E"], []⟩
      rfl rfl rfl rfl rfl rfl rfl rfl rfl rfl).1
    rw [h]
    decide

/-! Totality of the storage parser (claim C3). -/

/-- C3: `_parse_storage_size` never raises on unsuffixed input: it returns
its `int(...)`-or-`None` result (`None` for the empty string and for any
unsuffixed string failing numeric parsing), applies the memory suffix table
on suffixed input, and returns raw MB for unsuffixed numerics, so the
caller can distinguish "no value provided" from "zero". -/
theorem c3_parse_storage_total :
    _parse_storage_size (.vstr "") = some none ∧
    _parse_storage_size (.vstr "garbage") = some none ∧
    _parse_storage_size (.vstr "10Gi") = some (some 10240) ∧
    _parse_storage_size (.vstr "500") = some (some 500) ∧
    (∀ s : String,
      endsWithL (s.data.map Char.toUpper) ['G', 'I'] = false →
      endsWithL (s.data.map Char.toUpper) ['G'] = false →
      endsWithL (s.data.map Char.toUpper) ['M', 'I'] = false →
      endsWithL (s.data.map Char.toUpper) ['M'] = false →
      _parse_storage_size (.vstr s) = some (pyInt (s.data.map Char.toUpper))) := by
  refine ⟨by decide, by decide, by decide, by decide, ?_⟩
  intro s h1 h2 h3 h4
  by_cases hs : s = ""
  · subst hs
    decide
  · have ht : (Val.vstr s).truthy = true := by
      simp [Val.truthy, hs]
    unfold _parse_storage_size
    simp only [Option.bind_eq_bind, ht, Bool.not_true, Bool.false_eq_true, if_false, pyStr,
      Option.some_bind, h1, h2, h3, h4]

/-- Witness for C3: an unsuffixed non-numeric string is handled totally. -/
theorem c3_witness : _parse_storage_size (.vstr "x7") = some (pyInt ['X', '7']) :=
  c3_parse_storage_total.2.2.2.2 "x7" (by decide) (by decide) (by decide) (by decide)

/-! Character and suffix lemmas for the memory parser (claim C4). -/

theorem digit_toUpper {c : Char} (h : c.isDigit = true) : c.toUpper = c := by
  unfold Char.toUpper
  simp only [Char.isDigit, Bool.and_eq_true, decide_eq_true_eq] at h
  rw [if_neg]
  intro hcon
  have h2 : c.val.toNat ≤ 57 := UInt32.toNat_le_of_le (by decide) h.2
  have h3 : 97 ≤ c.val.toNat := hcon.1
  omega

theorem map_toUpper_digits {ds : List Char} (h : ds.all Char.isDigit = true) :
    ds.map Char.toUpper = ds := by
  induction ds with
  | nil => rfl
  | cons c cs ih =>
    rw [List.all_cons, Bool.and_eq_true] at h
    simp [digit_toUpper h.1, ih h.2]

theorem digit_not_plus {c : Char} (h : c.isDigit = true) : (c == '+') = false := by
  rw [beq_eq_false_iff_ne]
  rintro rfl
  exact absurd h (by decide)

theorem digit_not_minus {c : Char} (h : c.isDigit = true) : (c == '-') = false := by
  rw [beq_eq_false_iff_ne]
  rintro rfl
  exact absurd h (by decide)

theorem digit_not_ws {c : Char} (h : c.isDigit = true) : isWS c = false := by
  have h1 : (c == ' ') = false := by
    rw [beq_eq_false_iff_ne]; rintro rfl; exact absurd h (by decide)
  have h2 : (c == '\t') = false := by
    rw [beq_eq_false_iff_ne]; rintro rfl; exact absurd h (by decide)
  have h3 : (c == '\n') = false := by
    rw [beq_eq_false_iff_ne]; rintro rfl; exact absurd h (by decide)
  have h4 : (c == '\r') = false := by
    rw [beq_eq_false_iff_ne]; rintro rfl; exact absurd h (by decide)
  simp [isWS, h1, h2, h3, h4]

theorem stripLeadWS_digits {ds : List Char} (h : ds.all Char.isDigit = true) :
    stripLeadWS ds = ds := by
  cases ds with
  | nil => rfl
  | cons c cs =>
    rw [List.all_cons, Bool.and_eq_true] at h
    simp [stripLeadWS, digit_not_ws h.1]

theorem stripWS_digits {ds : List Char} (h : ds.all Char.isDigit = true) :
    stripWS ds = ds := by
  unfold stripWS
  rw [stripLeadWS_digits h]
  rw [stripLeadWS_digits (by simpa using h)]
  exact List.reverse_reverse ds

theorem pyInt_digits {ds : List Char} {n : Nat} (hd : digitsVal ds = some n) :
    pyInt ds = some (Int.ofNat n) := by
  have hsplit := hd
  unfold digitsVal at hsplit
  split at hsplit
  · exact absurd hsplit (by simp)
  · split at hsplit
    · rename_i hne hall
      cases ds with
      | nil => exact absurd rfl hne
      | cons c cs =>
        have hcd : c.isDigit = true := by
          rw [List.all_cons, Bool.and_eq_true] at hall
          exact hall.1
        unfold pyInt
        rw [stripWS_digits hall]
        simp only [digit_not_plus hcd, digit_not_minus hcd, Bool.false_eq_true, if_false,
          hd, Option.map_some']
    · exact absurd hsplit (by simp)

theorem startsWithL_nil (l : List Char) : startsWithL l [] = true := by
  cases l <;> rfl

theorem startsWithL_append_self (a b : List Char) : startsWithL (a ++ b) a = true := by
  induction a with
  | nil => exact startsWithL_nil b
  | cons c cs ih => simp [startsWithL, ih]

theorem endsWithL_append (l suf : List Char) : endsWithL (l ++ suf) suf = true := by
  unfold endsWithL
  rw [List.reverse_append]
  exact startsWithL_append_self _ _

theorem endsWithL_pair (l : List Char) (a b c d : Char) :
    endsWithL (l ++ [a, b]) [c, d] = ((b == d) && (a == c)) := by
  simp [endsWithL, List.reverse_append, startsWithL]

theorem endsWithL_single (l : List Char) (a c : Char) :
    endsWithL (l ++ [a]) [c] = (a == c) := by
  simp [endsWithL, List.reverse_append, startsWithL]

theorem endsWithL_last_two (l : List Char) (a c d : Char) (h : (a == d) = false) :
    endsWithL (l ++ [a]) [c, d] = false := by
  simp [endsWithL, List.reverse_append, startsWithL, h]

theorem endsWithL_digits_false (ds : List Char) (h : ds.all Char.isDigit = true)
    (cs : List Char) (c : Char) (hc : c.isDigit = false) :
    endsWithL ds (cs ++ [c]) = false := by
  unfold endsWithL
  have hrw : (cs ++ [c]).reverse = c :: cs.reverse := by simp
  rw [hrw]
  cases hrev : ds.reverse with
  | nil => rfl
  | cons d rest =>
    have hdm : d ∈ ds := List.mem_reverse.mp (hrev ▸ List.mem_cons_self d rest)
    have hdig : d.isDigit = true := List.all_eq_true.mp h d hdm
    have hne : (d == c) = false := by
      rw [beq_eq_false_iff_ne]
      rintro rfl
      rw [hdig] at hc
      exact absurd hc (by decide)
    simp [startsWithL, hne]

theorem dropRightL_append2 (l : List Char) (a b : Char) : dropRightL (l ++ [a, b]) 2 = l := by
  unfold dropRightL
  rw [List.length_append]
  simp only [List.length_cons, List.length_nil]
  rw [Nat.add_sub_cancel]
  exact List.take_left l [a, b]

theorem dropRightL_append1 (l : List Char) (a : Char) : dropRightL (l ++ [a]) 1 = l := by
  unfold dropRightL
  rw [List.length_append]
  simp only [List.length_cons, List.length_nil]
  rw [Nat.add_sub_cancel]
  exact List.take_left l [a]

/-- C4: `_parse_memory_size` matches suffixes case-insensitively and
longest-suffix-first (`Mi` before `M`, `Gi` before `G`), mapping `Mi`/`M`
to MB and `Gi`/`G` to x1024, parses unsuffixed numerics as raw MB, and
returns 0 on empty input; in particular `512Mi` to 512, `2Gi` to 2048,
`1G` to 1024, `100M` to 100, the empty string to 0. -/
theorem c4_parse_memory :
    _parse_memory_size (.vstr "512Mi") = some 512 ∧
    _parse_memory_size (.vstr "2Gi") = some 2048 ∧
    _parse_memory_size (.vstr "1G") = some 1024 ∧
    _parse_memory_size (.vstr "100M") = some 100 ∧
    _parse_memory_size (.vstr "") = some 0 ∧
    (∀ (ds : List Char) (n : Nat) (c1 c2 : Char),
      ds.all Char.isDigit = true → digitsVal ds = some n →
      c1.toUpper = 'M' → c2.toUpper = 'I' →
      _parse_memory_size (.vstr (String.mk (ds ++ [c1, c2]))) = some (Int.ofNat n)) ∧
    (∀ (ds : List Char) (n : Nat) (c1 c2 : Char),
      ds.all Char.isDigit = true → digitsVal ds = some n →
      c1.toUpper = 'G' → c2.toUpper = 'I' →
      _parse_memory_size (.vstr (String.mk (ds ++ [c1, c2]))) =
        some (Int.ofNat n * 1024)) ∧
    (∀ (ds : List Char) (n : Nat) (c : Char),
      ds.all Char.isDigit = true → digitsVal ds = some n → c.toUpper = 'M' →
      _parse_memory_size (.vstr (String.mk (ds ++ [c]))) = some (Int.ofNat n)) ∧
    (∀ (ds : List Char) (n : Nat) (c : Char),
      ds.all Char.isDigit = true → digitsVal ds = some n → c.toUpper = 'G' →
      _parse_memory_size (.vstr (String.mk (ds ++ [c]))) = some (Int.ofNat n * 1024)) ∧
    (∀ (ds : List Char) (n : Nat),
      ds.all Char.isDigit = true → digitsVal ds = some n →
      _parse_memory_size (.vstr (String.mk ds)) = some (Int.ofNat n)) := by
  refine ⟨by decide, by decide, by decide, by decide, by decide, ?_, ?_, ?_, ?_, ?_⟩
  · intro ds n c1 c2 hall hd h1 h2
    have ht : (Val.vstr (String.mk (ds ++ [c1, c2]))).truthy = true := by
      simp [Val.truthy, String.ext_iff]
    unfold _parse_memory_size
    simp only [Option.bind_eq_bind, ht, Bool.not_true, Bool.false_eq_true, if_false, pyStr,
      Option.some_bind, List.map_append, map_toUpper_digits hall, List.map_cons,
      List.map_nil, h1, h2, endsWithL_append, if_true, dropRightL_append2,
      pyInt_digits hd]
  · intro ds n c1 c2 hall hd h1 h2
    have ht : (Val.vstr (String.mk (ds ++ [c1, c2]))).truthy = true := by
      simp [Val.truthy, String.ext_iff]
    unfold _parse_memory_size
    simp only [Option.bind_eq_bind, ht, Bool.not_true, Bool.false_eq_true, if_false, pyStr,
      Option.some_bind, List.map_append, map_toUpper_digits hall, List.map_cons,
      List.map_nil, h1, h2, endsWithL_pair, endsWithL_append, if_true,
      dropRightL_append2, pyInt_digits hd]
    rw [if_neg (by decide)]
    rfl
  · intro ds n c hall hd h1
    have ht : (Val.vstr (String.mk (ds ++ [c]))).truthy = true := by
      simp [Val.truthy, String.ext_iff]
    unfold _parse_memory_size
    simp only [Option.bind_eq_bind, ht, Bool.not_true, Bool.false_eq_true, if_false, pyStr,
      Option.some_bind, List.map_append, map_toUpper_digits hall, List.map_cons,
      List.map_nil, h1, endsWithL_last_two ds 'M' 'M' 'I' (by decide),
      endsWithL_last_two ds 'M' 'G' 'I' (by decide), endsWithL_single,
      if_false, dropRightL_append1, pyInt_digits hd]
    rw [if_pos (by decide)]
  · intro ds n c hall hd h1
    have ht : (Val.vstr (String.mk (ds ++ [c]))).truthy = true := by
      simp [Val.truthy, String.ext_iff]
    unfold _parse_memory_size
    simp only [Option.bind_eq_bind, ht, Bool.not_true, Bool.false_eq_true, if_false, pyStr,
      Option.some_bind, List.map_append, map_toUpper_digits hall, List.map_cons,
      List.map_nil, h1, endsWithL_last_two ds 'G' 'M' 'I' (by decide),
      endsWithL_last_two ds 'G' 'G' 'I' (by decide), endsWithL_single,
      if_false, dropRightL_append1, pyInt_digits hd]
    rw [if_neg (by decide), if_pos (by decide)]
    rfl
  · intro ds n hall hd
    have hnil : ds ≠ [] := by
      intro heq
      rw [heq] at hd
      exact absurd hd (by simp [digitsVal])
    have ht : (Val.vstr (String.mk ds)).truthy = true := by
      cases ds with
      | nil => exact absurd rfl hnil
      | cons c cs => simp [Val.truthy, String.ext_iff]
    have hMI : endsWithL ds ['M', 'I'] = false :=
      endsWithL_digits_false ds hall ['M'] 'I' (by decide)
    have hGI : endsWithL ds ['G', 'I'] = false :=
      endsWithL_digits_false ds hall ['G'] 'I' (by decide)
    have hM : endsWithL ds ['M'] = false :=
      endsWithL_digits_false ds hall [] 'M' (by decide)
    have hG : endsWithL ds ['G'] = false :=
      endsWithL_digits_false ds hall [] 'G' (by decide)
    unfold _parse_memory_size
    simp only [Option.bind_eq_bind, ht, Bool.not_true, Bool.false_eq_true, if_false, pyStr,
      Option.some_bind, map_toUpper_digits hall, hMI, hGI, hM, hG, if_false,
      pyInt_digits hd]

/-- Witness for C4: the mixed-case suffix `mI` is recognised as `Mi`, and the
unsuffixed numeral `256` parses as raw MB. -/
theorem c4_witness :
    _parse_memory_size (.vstr (String.mk (['5', '1', '2'] ++ ['m', 'I']))) =
      some (Int.ofNat 512) ∧
    _parse_memory_size (.vstr (String.mk ['2', '5', '6'])) = some (Int.ofNat 256) :=
  ⟨c4_parse_memory.2.2.2.2.2.1 ['5', '1', '2'] 512 'm' 'I' (by decide) (by decide)
    (by decide) (by decide),
   c4_parse_memory.2.2.2.2.2.2.2.2.2 ['2', '5', '6'] 256 (by decide) (by decide)⟩

/-! Characterisation of the resource-ratio check (claim C1). -/

/-- Characterisation of the CPU half of the ratio check. -/
theorem ratioCpuCheck_char (requests limits rcv lcv : Val) (rc lc : Int)
    (rcs lcs : String) (service : String) (st : VState)
    (hbc : bothHaveKey requests limits "cpu" = some true)
    (hrv : pySub requests "cpu" = some rcv)
    (hprc : _parse_cpu_value rcv = some rc)
    (hsrc : pyStr rcv = some rcs)
    (hlv : pySub limits "cpu" = some lcv)
    (hplc : _parse_cpu_value lcv = some lc)
    (hslc : pyStr lcv = some lcs) :
    ratioCpuCheck requests limits service st = some
      ⟨st.errors ++ (if lc < rc then [cpuLimitLtMsg service lcs rcs] else []),
       st.warnings ++ (if lc < rc then []
         else if lc > rc * 4 then [cpuLimitHighMsg service] else [])⟩ := by
  unfold ratioCpuCheck
  simp only [Option.bind_eq_bind, hbc, Option.some_bind, eq_self_iff_true, if_true, hrv,
    hprc, hlv, hplc, hsrc, hslc, Option.pure_def]
  by_cases h1 : lc < rc
  · simp [h1, VState.addError]
  · by_cases h2 : lc > rc * 4 <;> simp [h1, h2, VState.addWarning]

/-- Characterisation of the memory half of the ratio check. -/
theorem ratioMemCheck_char (requests limits rmv lmv : Val) (rm lm : Int)
    (rms lms : String) (service : String) (st : VState)
    (hbm : bothHaveKey requests limits "memory" = some true)
    (hrv : pySub requests "memory" = some rmv)
    (hprm : _parse_memory_size rmv = some rm)
    (hsrm : pyStr rmv = some rms)
    (hlv : pySub limits "memory" = some lmv)
    (hplm : _parse_memory_size lmv = some lm)
    (hslm : pyStr lmv = some lms) :
    ratioMemCheck requests limits service st = some
      ⟨st.errors ++ (if lm < rm then [memLimitLtMsg service lms rms] else []),
       st.warnings ++ (if lm < rm then []
         else if lm > rm * 4 then [memLimitHighMsg service] else [])⟩ := by
  unfold ratioMemCheck
  simp only [Option.bind_eq_bind, hbm, Option.some_bind, eq_self_iff_true, if_true, hrv,
    hprm, hlv, hplm, hsrm, hslm, Option.pure_def]
  by_cases h1 : lm < rm
  · simp [h1, VState.addError]
  · by_cases h2 : lm > rm * 4 <;> simp [h1, h2, VState.addWarning]

/-- C1: for a service whose resources carry both requests and limits, for
each of CPU and memory present on both sides, a limit strictly below the
normalized request appends exactly one Error naming the service and the
resource; a limit strictly above 4x the normalized request appends exactly
one Warning; otherwise no finding is appended for that resource. -/
theorem c1_resource_ratio (resources requests limits rcv lcv rmv lmv : Val)
    (rc lc rm lm : Int) (rcs lcs rms lms : String) (service : String) (st : VState)
    (hreq : pyGetD resources "requests" (.vmap []) = some requests)
    (hlim : pyGetD resources "limits" (.vmap []) = some limits)
    (hbc : bothHaveKey requests limits "cpu" = some true)
    (hbm : bothHaveKey requests limits "memory" = some true)
    (hrv : pySub requests "cpu" = some rcv)
    (hprc : _parse_cpu_value rcv = some rc)
    (hsrc : pyStr rcv = some rcs)
    (hlv : pySub limits "cpu" = some lcv)
    (hplc : _parse_cpu_value lcv = some lc)
    (hslc : pyStr lcv = some lcs)
    (hrm : pySub requests "memory" = some rmv)
    (hprm : _parse_memory_size rmv = some rm)
    (hsrm : pyStr rmv = some rms)
    (hlm : pySub limits "memory" = some lmv)
    (hplm : _parse_memory_size lmv = some lm)
    (hslm : pyStr lmv = some lms) :
    _validate_resource_ratio resources service st = some
      ⟨st.errors ++ (if lc < rc then [cpuLimitLtMsg service lcs rcs] else [])
                 ++ (if lm < rm then [memLimitLtMsg service lms rms] else []),
       st.warnings ++ (if lc < rc then []
                       else if lc > rc * 4 then [cpuLimitHighMsg service] else [])
                   ++ (if lm < rm then []
                       else if lm > rm * 4 then [memLimitHighMsg service] else [])⟩ := by
  unfold _validate_resource_ratio
  simp only [Option.bind_eq_bind, hreq, Option.some_bind, hlim]
  rw [ratioCpuCheck_char requests limits rcv lcv rc lc rcs lcs service st
    hbc hrv hprc hsrc hlv hplc hslc]
  simp only [Option.some_bind]
  rw [ratioMemCheck_char requests limits rmv lmv rm lm rms lms service
    ⟨st.errors ++ (if lc < rc then [cpuLimitLtMsg service lcs rcs] else []),
     st.warnings ++ (if lc < rc then []
       else if lc > rc * 4 then [cpuLimitHighMsg service] else [])⟩
    hbm hrm hprm hsrm hlm hplm hslm]

/-- Witness for C1: limits = 5x requests on CPU yields exactly one Warning
and no Error. -/
theorem c1_witness :
    _validate_resource_ratio res5x "api" ⟨[], []⟩ =
      some ⟨[], [cpuLimitHighMsg "api"]⟩ := by
  have h := c1_resource_ratio res5x
    (.vmap [("cpu", .vstr "100m"), ("memory", .vstr "512Mi")])
    (.vmap [("cpu", .vstr "500m"), ("memory", .vstr "512Mi")])
    (.vstr "100m") (.vstr "500m") (.vstr "512Mi") (.vstr "512Mi")
    100 500 512 512 "100m" "500m" "512Mi" "512Mi" "api" ⟨[], []⟩
    rfl rfl rfl rfl rfl rfl rfl rfl rfl rfl rfl rfl rfl rfl rfl rfl
  rw [h]
  decide

/-! Aggregate resource-capacity check (claim C5).  The claim-side
description of the summation is stated with independent total functions
(`specTotals` and friends, safe accessors that treat anything missing as
absent), and the code's accumulating loops are proved to compute exactly
these sums whenever they complete. -/

/-- Successful subscripting forces a mapping receiver. -/
theorem pySub_some {v : Val} {k : String} {x : Val} (h : pySub v k = some x) :
    ∃ l, v = .vmap l ∧ lookupKV l k = some x := by
  cases v with
  | vmap l => exact ⟨l, rfl, h⟩
  | vnull => exact absurd h (by simp [pySub])
  | vbool b => exact absurd h (by simp [pySub])
  | vint n => exact absurd h (by simp [pySub])
  | vstr t => exact absurd h (by simp [pySub])
  | vseq l => exact absurd h (by simp [pySub])

/-- Successful defaulted lookup forces a mapping receiver. -/
theorem pyGetD_some {v : Val} {k : String} {d x : Val} (h : pyGetD v k d = some x) :
    ∃ l, v = .vmap l ∧ (lookupKV l k).getD d = x := by
  cases v with
  | vmap l =>
    refine ⟨l, rfl, ?_⟩
    simpa [pyGetD] using h
  | vnull => exact absurd h (by simp [pyGetD])
  | vbool b => exact absurd h (by simp [pyGetD])
  | vint n => exact absurd h (by simp [pyGetD])
  | vstr t => exact absurd h (by simp [pyGetD])
  | vseq l => exact absurd h (by simp [pyGetD])

theorem pyContains_true_vmap {l : List (String × Val)} {k : String}
    (h : pyContains (.vmap l) k = some true) : hasKeyB (.vmap l) k = true := by
  simpa [pyContains, hasKeyB] using h

theorem pyContains_false_hasKeyB {v : Val} {k : String}
    (h : pyContains v k = some false) : hasKeyB v k = false := by
  cases v with
  | vmap l => simpa [pyContains, hasKeyB] using h
  | vseq l => rfl
  | vnull => exact absurd h (by simp [pyContains])
  | vbool b => exact absurd h (by simp [pyContains])
  | vint n => exact absurd h (by simp [pyContains])
  | vstr t => exact absurd h (by simp [pyContains])

theorem bool_false_of_not_true {c : Bool} (h : ¬c = true) : c = false := by
  cases c with
  | false => rfl
  | true => exact absurd rfl h

/-- A completed `addRequests` call adds exactly the claim-side amounts. -/
theorem addRequests_eq {resources : Val} {acc acc' : Int × Int}
    (h : addRequests resources acc = some acc') :
    acc' = (acc.1 + (specReqOfResources resources).1,
            acc.2 + (specReqOfResources resources).2) := by
  unfold addRequests at h
  obtain ⟨c, hc, h⟩ := Option.bind_eq_some.mp h
  split at h
  · rename_i hct
    subst hct
    obtain ⟨req, hreq, h⟩ := Option.bind_eq_some.mp h
    obtain ⟨cv, hcv, h⟩ := Option.bind_eq_some.mp h
    obtain ⟨cpu, hcpu, h⟩ := Option.bind_eq_some.mp h
    obtain ⟨mv, hmv, h⟩ := Option.bind_eq_some.mp h
    obtain ⟨mem, hmem, h⟩ := Option.bind_eq_some.mp h
    cases pure_some h
    obtain ⟨rl, rfl, hlook⟩ := pySub_some hreq
    have hk : hasKeyB (.vmap rl) "requests" = true := pyContains_true_vmap hc
    obtain ⟨ql, rfl, hcv'⟩ := pyGetD_some hcv
    have hmv' : (lookupKV ql "memory").getD (.vstr "0") = mv := by
      simpa [pyGetD] using hmv
    simp [specReqOfResources, hk, specGet, hlook, hcv', hmv', hcpu, hmem]
  · rename_i hcf
    cases pure_some h
    have hcq : c = false := bool_false_of_not_true hcf
    subst hcq
    simp [specReqOfResources, pyContains_false_hasKeyB hc]

/-- A completed first-loop iteration adds exactly the claim-side
contribution of its service. -/
theorem addTopService_eq {values : Val} {svc : String} {acc acc' : Int × Int}
    (h : addTopService values svc acc = some acc') :
    acc' = (acc.1 + (specTopContribution values svc).1,
            acc.2 + (specTopContribution values svc).2) := by
  unfold addTopService at h
  obtain ⟨c, hc, h⟩ := Option.bind_eq_some.mp h
  split at h
  · rename_i hct
    subst hct
    obtain ⟨sv, hsv, h⟩ := Option.bind_eq_some.mp h
    obtain ⟨resources, hres, h⟩ := Option.bind_eq_some.mp h
    obtain ⟨vl, rfl, hlook⟩ := pySub_some hsv
    have hk : hasKeyB (.vmap vl) svc = true := pyContains_true_vmap hc
    obtain ⟨sl, rfl, hres'⟩ := pyGetD_some hres
    rw [addRequests_eq h]
    simp [specTopContribution, hk, specGet, hlook, hres']
  · rename_i hcf
    cases pure_some h
    have hcq : c = false := bool_false_of_not_true hcf
    subst hcq
    simp [specTopContribution, pyContains_false_hasKeyB hc]

/-- A completed second-loop iteration adds exactly the claim-side
contribution of its `primary`/`master` sub-service. -/
theorem addSubService_eq {values : Val} {svc sub : String} {acc acc' : Int × Int}
    (h : addSubService values svc sub acc = some acc') :
    acc' = (acc.1 + (specSubContribution values svc sub).1,
            acc.2 + (specSubContribution values svc sub).2) := by
  unfold addSubService at h
  obtain ⟨c, hc, h1⟩ := Option.bind_eq_some.mp h
  split at h1
  · rename_i hct
    subst hct
    obtain ⟨sv, hsv, h2⟩ := Option.bind_eq_some.mp h1
    obtain ⟨hs, hhs, h3⟩ := Option.bind_eq_some.mp h2
    obtain ⟨vl, rfl, hlook⟩ := pySub_some hsv
    have hk1 : hasKeyB (.vmap vl) svc = true := pyContains_true_vmap hc
    split at h3
    · rename_i hst
      subst hst
      obtain ⟨p, hp, h4⟩ := Option.bind_eq_some.mp h3
      obtain ⟨resources, hres, h5⟩ := Option.bind_eq_some.mp h4
      obtain ⟨sl, hsveq, hlook2⟩ := pySub_some hp
      subst hsveq
      have hk2 : hasKeyB (.vmap sl) sub = true := pyContains_true_vmap hhs
      obtain ⟨pl, rfl, hres'⟩ := pyGetD_some hres
      rw [addRequests_eq h5]
      simp [specSubContribution, hk1, hk2, specGet, hlook, hlook2, hres']
    · rename_i hsf
      cases pure_some h3
      have hsq : hs = false := bool_false_of_not_true hsf
      subst hsq
      have hk2 : hasKeyB sv sub = false := pyContains_false_hasKeyB hhs
      simp [specSubContribution, hk1, hk2, specGet, hlook]
  · rename_i hcf
    cases pure_some h1
    have hcq : c = false := bool_false_of_not_true hcf
    subst hcq
    simp [specSubContribution, pyContains_false_hasKeyB hc]

/-- C5: a completed `_validate_resource_limits` call leaves the errors
unchanged and appends exactly one Warning carrying the summed CPU
millicores when that sum exceeds 4000, and exactly one Warning carrying the
summed memory MB when that sum exceeds 8192, the sums ranging over exactly
api, frontend, postgresql.primary and redis.master (absent pieces
contributing 0). -/
theorem c5_aggregate_capacity (values : Val) (st st' : VState)
    (h : _validate_resource_limits values st = some st') :
    st' = ⟨st.errors,
      st.warnings
        ++ (if (specTotals values).1 > 4000 then [totalCpuMsg (specTotals values).1]
            else [])
        ++ (if (specTotals values).2 > 8192 then [totalMemMsg (specTotals values).2]
            else [])⟩ := by
  unfold _validate_resource_limits at h
  obtain ⟨a1, h1, h⟩ := Option.bind_eq_some.mp h
  obtain ⟨a2, h2, h⟩ := Option.bind_eq_some.mp h
  obtain ⟨a3, h3, h⟩ := Option.bind_eq_some.mp h
  obtain ⟨a4, h4, h⟩ := Option.bind_eq_some.mp h
  cases pure_some h
  have e1 := addTopService_eq h1
  have e2 := addTopService_eq h2
  have e3 := addSubService_eq h3
  have e4 := addSubService_eq h4
  have ha : a4 = specTotals values := by
    rw [e4, e3, e2, e1]
    unfold specTotals
    rw [Prod.ext_iff]
    constructor <;> simp
  rw [ha]
  by_cases hc : (specTotals values).1 > 4000 <;>
    by_cases hm : (specTotals values).2 > 8192 <;>
      simp [hc, hm, VState.addWarning]

/-- Witness for C5: a 5000m total yields exactly the one CPU warning (whose
message renders the total as `5000m`), a 3000m total yields none. -/
theorem c5_witness :
    ((⟨[], [totalCpuMsg 5000]⟩ : VState) = ⟨[],
      [] ++ (if (specTotals lim5000).1 > 4000 then [totalCpuMsg (specTotals lim5000).1]
             else [])
         ++ (if (specTotals lim5000).2 > 8192 then [totalMemMsg (specTotals lim5000).2]
             else [])⟩) ∧
    totalCpuMsg 5000 = "Total CPU requests (5000m) may exceed development machine capacity" ∧
    ((⟨[], []⟩ : VState) = ⟨[],
      [] ++ (if (specTotals lim3000).1 > 4000 then [totalCpuMsg (specTotals lim3000).1]
             else [])
         ++ (if (specTotals lim3000).2 > 8192 then [totalMemMsg (specTotals lim3000).2]
             else [])⟩) :=
  ⟨c5_aggregate_capacity lim5000 ⟨[], []⟩ ⟨[], [totalCpuMsg 5000]⟩ (by decide),
   by decide,
   c5_aggregate_capacity lim3000 ⟨[], []⟩ ⟨[], []⟩ (by decide)⟩

/-! Storage-configuration check (claim C8). -/

theorem hasKeyB_eq_isSome (l : List (String × Val)) (k : String) :
    hasKeyB (.vmap l) k = (lookupKV l k).isSome := by
  induction l with
  | nil => rfl
  | cons p rest ih =>
    obtain ⟨k', v⟩ := p
    simp only [hasKeyB, lookupKV, List.any_cons] at *
    by_cases hk : k' == k <;> simp [hk, ih]

theorem hasKeyB_of_lookup {l : List (String × Val)} {k : String} {x : Val}
    (h : lookupKV l k = some x) : hasKeyB (.vmap l) k = true := by
  rw [hasKeyB_eq_isSome, h]
  rfl

/-- A completed `_get_service_storage_size` call computes the claim-side
size. -/
theorem _get_service_storage_size_eq {values : Val} {service : String} {sz : Int}
    (h : _get_service_storage_size values service = some sz) :
    sz = specStorageSize values service := by
  unfold _get_service_storage_size at h
  unfold specStorageSize
  revert h
  generalize persistencePath service = pp
  intro h
  rcases pp with _ | ⟨k1, k2⟩
  · exact (pure_some h).symm
  · obtain ⟨a, ha, h1⟩ := Option.bind_eq_some.mp h
    obtain ⟨b, hb, h2⟩ := Option.bind_eq_some.mp h1
    obtain ⟨pers, hpers, h3⟩ := Option.bind_eq_some.mp h2
    obtain ⟨en, hen, h4⟩ := Option.bind_eq_some.mp h3
    obtain ⟨vl, rfl, hl1⟩ := pyGetD_some ha
    obtain ⟨al, hae, hl2⟩ := pyGetD_some hb
    subst hae
    obtain ⟨bl, hbe, hl3⟩ := pyGetD_some hpers
    subst hbe
    obtain ⟨pl, hpe, hl4⟩ := pyGetD_some hen
    subst hpe
    split at h4
    · rename_i ht
      obtain ⟨size, hsize, h5⟩ := Option.bind_eq_some.mp h4
      obtain ⟨ps, hps2, h6⟩ := Option.bind_eq_some.mp h5
      have hsz6 : ps.getD 0 = sz := pure_some h6
      have hsize2 : (lookupKV pl "size").getD (.vstr "") = size := by
        simpa [pyGetD] using hsize
      rw [← hsz6]
      simp [specGet, hl1, hl2, hl3, hl4, ht, hsize2, hps2]
    · rename_i hf
      have hz : (0 : Int) = sz := pure_some h4
      rw [← hz]
      have hef : en.truthy = false := bool_false_of_not_true hf
      simp [specGet, hl1, hl2, hl3, hl4, hef]

/-- A completed storage-summing step adds the claim-side size. -/
theorem addServiceStorage_eq {values : Val} {acc : Int} {svc : String} {acc' : Int}
    (h : addServiceStorage values acc svc = some acc') :
    acc' = acc + specStorageSize values svc := by
  unfold addServiceStorage at h
  obtain ⟨sz, hsz, h1⟩ := Option.bind_eq_some.mp h
  have h2 := pure_some h1
  rw [← h2]
  have he := _get_service_storage_size_eq hsz
  subst he
  by_cases h0 : specStorageSize values svc = 0 <;> simp [h0]

/-- Decomposition of a `subHasKey _ = some false` outcome. -/
theorem subHasKey_false {v : Val} {k1 k2 : String}
    (h : subHasKey v k1 k2 = some false) :
    (hasKeyB v k1 && hasKeyB (specGet v k1 .vnull) k2) = false := by
  unfold subHasKey at h
  obtain ⟨c, hc, h1⟩ := Option.bind_eq_some.mp h
  split at h1
  · rename_i hct
    subst hct
    obtain ⟨s, hs, h2⟩ := Option.bind_eq_some.mp h1
    obtain ⟨vl, rfl, hlook⟩ := pySub_some hs
    have hk2 : hasKeyB s k2 = false := pyContains_false_hasKeyB h2
    simp [specGet, hlook, hk2]
  · rename_i hcf
    cases pure_some h1
    have hcq : c = false := bool_false_of_not_true hcf
    subst hcq
    simp [pyContains_false_hasKeyB hc]

/-- Decomposition of a `subHasKey _ = some true` outcome. -/
theorem subHasKey_true {v : Val} {k1 k2 : String}
    (h : subHasKey v k1 k2 = some true) :
    ∃ s, pySub v k1 = some s ∧ pyContains s k2 = some true := by
  unfold subHasKey at h
  obtain ⟨c, hc, h1⟩ := Option.bind_eq_some.mp h
  split at h1
  · obtain ⟨s, hs, h2⟩ := Option.bind_eq_some.mp h1
    exact ⟨s, hs, h2⟩
  · exact absurd (pure_some h1) (by simp)

/-- C8 (amended): a completed `_validate_storage_config` call appends the
storage-class Warning when no global storage class is set, sums the
enabled-persistence volume sizes of postgresql, redis and — whenever the
`ai` section carries a `vllm` key, regardless of the vllm `enabled` flag —
the model-serving service, and appends exactly one size Warning (total
rendered in GB to one decimal place) iff that sum exceeds 100 x 1024 MB. -/
theorem c8_storage_config (values : Val) (st st' : VState)
    (h : _validate_storage_config values st = some st') :
    st' = ⟨st.errors,
      st.warnings
        ++ (if (specStorageClass values).truthy = false then [storageClassMsg] else [])
        ++ (if specStorageTotal values > 100 * 1024 then
            [totalStorageMsg (specStorageTotal values)] else [])⟩ := by
  unfold _validate_storage_config at h
  obtain ⟨globalCfg, hg, h1⟩ := Option.bind_eq_some.mp h
  obtain ⟨sc, hsc, h2⟩ := Option.bind_eq_some.mp h1
  obtain ⟨withVllm, hwv, h3⟩ := Option.bind_eq_some.mp h2
  obtain ⟨total, htot, h4⟩ := Option.bind_eq_some.mp h3
  have hp4 := pure_some h4
  rw [← hp4]
  obtain ⟨vl, rfl, hl1⟩ := pyGetD_some hg
  obtain ⟨gl, hge, hl2⟩ := pyGetD_some hsc
  subst hge
  have hscs : specStorageClass (.vmap vl) = sc := by
    simp [specStorageClass, specGet, hl1, hl2]
  cases withVllm with
  | false =>
    have hnv : specHasVllm (.vmap vl) = false := by
      simpa [specHasVllm] using subHasKey_false hwv
    simp only [Bool.false_eq_true, if_false] at htot
    rw [List.foldlM_cons] at htot
    obtain ⟨t1, ht1, htot⟩ := Option.bind_eq_some.mp htot
    rw [List.foldlM_cons] at htot
    obtain ⟨t2, ht2, htot⟩ := Option.bind_eq_some.mp htot
    simp only [List.foldlM_nil] at htot
    have hteq : t2 = total := pure_some htot
    subst hteq
    have e1 := addServiceStorage_eq ht1
    have e2 := addServiceStorage_eq ht2
    have het : t2 = specStorageTotal (.vmap vl) := by
      rw [e2, e1]
      simp [specStorageTotal, hnv]
    rw [het, hscs]
    by_cases hcl : sc.truthy <;>
      by_cases hst : 102400 < specStorageTotal (.vmap vl) <;>
        simp [hcl, hst, VState.addWarning]
  | true =>
    obtain ⟨s, hs, hcont⟩ := subHasKey_true hwv
    have hlook : lookupKV vl "ai" = some s := by
      simpa [pySub] using hs
    cases s with
    | vmap sl =>
      have hv : specHasVllm (.vmap vl) = true := by
        simp [specHasVllm, hasKeyB_of_lookup hlook, specGet, hlook,
          pyContains_true_vmap hcont]
      simp only [if_true] at htot
      rw [List.foldlM_cons] at htot
      obtain ⟨t1, ht1, htot⟩ := Option.bind_eq_some.mp htot
      rw [List.foldlM_cons] at htot
      obtain ⟨t2, ht2, htot⟩ := Option.bind_eq_some.mp htot
      rw [List.foldlM_cons] at htot
      obtain ⟨t3, ht3, htot⟩ := Option.bind_eq_some.mp htot
      simp only [List.foldlM_nil] at htot
      have hteq : t3 = total := pure_some htot
      subst hteq
      have e1 := addServiceStorage_eq ht1
      have e2 := addServiceStorage_eq ht2
      have e3 := addServiceStorage_eq ht3
      have het : t3 = specStorageTotal (.vmap vl) := by
        rw [e3, e2, e1]
        simp [specStorageTotal, hv, add_assoc]
      rw [het, hscs]
      by_cases hcl : sc.truthy <;>
        by_cases hst : 102400 < specStorageTotal (.vmap vl) <;>
          simp [hcl, hst, VState.addWarning]
    | vnull =>
      exact absurd hcont (by simp [pyContains])
    | vbool b =>
      exact absurd hcont (by simp [pyContains])
    | vint n =>
      exact absurd hcont (by simp [pyContains])
    | vstr t =>
      exact absurd hcont (by simp [pyContains])
    | vseq l =>
      simp only [if_true] at htot
      rw [List.foldlM_cons] at htot
      obtain ⟨t1, ht1, htot⟩ := Option.bind_eq_some.mp htot
      rw [List.foldlM_cons] at htot
      obtain ⟨t2, ht2, htot⟩ := Option.bind_eq_some.mp htot
      rw [List.foldlM_cons] at htot
      obtain ⟨t3, ht3, htot⟩ := Option.bind_eq_some.mp htot
      exact absurd ht3 (by
        simp [addServiceStorage, _get_service_storage_size, persistencePath,
          pyGetD, hlook])

/-- C8 counterexample: the vllm service is disabled (`ai.vllm.enabled` is
false), so under the claim it would not be counted and no size Warning
could be appended (database and cache contribute 0); the code nevertheless
counts its 200Gi persistence — the inclusion condition is the presence of
the `ai.vllm` key, not the enabled flag — and appends the size Warning. -/
theorem c8_counterexample :
    specGet (specGet (specGet vllmDisabledVals "ai" .vnull) "vllm" .vnull)
      "enabled" .vnull = .vbool false ∧
    _validate_storage_config vllmDisabledVals ⟨[], []⟩ =
      some ⟨[], [totalStorageMsg 204800]⟩ ∧
    totalStorageMsg 204800 =
      "Total storage requests (200.0GB) are quite large for development" :=
  ⟨rfl, by decide, by decide⟩

/-- Witness for C8: the amended characterisation applied to the same
document. -/
theorem c8_witness :
    (⟨[], [totalStorageMsg 204800]⟩ : VState) = ⟨[],
      [] ++ (if (specStorageClass vllmDisabledVals).truthy = false
             then [storageClassMsg] else [])
         ++ (if specStorageTotal vllmDisabledVals > 100 * 1024 then
             [totalStorageMsg (specStorageTotal vllmDisabledVals)] else [])⟩ :=
  c8_storage_config vllmDisabledVals ⟨[], []⟩ ⟨[], [totalStorageMsg 204800]⟩ (by decide)

/-! Cluster-bootstrap check (claim C7). -/

/-- On mapping nodes the role comprehension computes the claim-side flags. -/
theorem mapM_cp {ns : List Val} (hmaps : ∀ n ∈ ns, ∃ nl, n = Val.vmap nl) :
    ns.mapM nodeIsControlPlane = some (ns.map specIsCP) := by
  induction ns with
  | nil => rfl
  | cons n rest ih =>
    obtain ⟨nl, rfl⟩ := hmaps n (by simp)
    have hstep : nodeIsControlPlane (.vmap nl) = some (specIsCP (.vmap nl)) := by
      simp [nodeIsControlPlane, pyGetD, specIsCP, specGet, Option.bind_eq_bind]
    rw [List.mapM_cons, hstep]
    simp only [Option.bind_eq_bind, Option.some_bind]
    rw [ih (fun n hn => hmaps n (by simp [hn]))]
    rfl

/-- On mapping nodes the port-mapping loop appends one warning per
control-plane node without port mappings, in order. -/
theorem foldlM_ports :
    ∀ (ns : List Val), (∀ n ∈ ns, ∃ nl, n = Val.vmap nl) → ∀ st : VState,
      List.foldlM nodePortCheck st ns = some
        ⟨st.errors, st.warnings ++ (ns.filter (fun n => specIsCP n && specNoPM n)).map
          (fun _ => noPortMappingsMsg)⟩ := by
  intro ns
  induction ns with
  | nil =>
    intro hmaps st
    simp [List.foldlM_nil]
  | cons n rest ih =>
    intro hmaps st
    obtain ⟨nl, rfl⟩ := hmaps n (by simp)
    have hstep : nodePortCheck st (.vmap nl) = some
        (if specIsCP (.vmap nl) && specNoPM (.vmap nl) then
          st.addWarning noPortMappingsMsg else st) := by
      unfold nodePortCheck nodeIsControlPlane
      simp only [Option.bind_eq_bind, pyGetD, Option.some_bind, Option.pure_def]
      by_cases hcp : specIsCP (.vmap nl) <;>
        by_cases hpm : specNoPM (.vmap nl) <;>
          simp_all [specIsCP, specNoPM, specGet]
    rw [List.foldlM_cons, hstep]
    simp only [Option.bind_eq_bind, Option.some_bind]
    rw [ih (fun n hn => hmaps n (by simp [hn]))]
    by_cases hc : specIsCP (.vmap nl) && specNoPM (.vmap nl) <;>
      simp [hc, List.filter_cons, VState.addWarning]

theorem any_false_iff {ns : List Val} :
    ns.any specIsCP = false ↔ ∀ a ∈ ns, specIsCP a = false := by
  simp [List.any_eq_false]

/-- C7: a missing config file appends one Error and short-circuits; a parse
failure appends one Error and short-circuits; otherwise the validator
appends an Error when the top-level kind is not `Cluster`, an Error when no
nodes are declared, an Error when no node has the control-plane role, and
one Warning per control-plane node lacking `extraPortMappings` entries. -/
theorem c7_kind_config :
    (∀ st : VState,
      validate_kind_config .missing st = some (st.addError kindMissingMsg, false)) ∧
    (∀ (e : String) (st : VState),
      validate_kind_config (.parseFail e) st =
        some (st.addError (kindParseFailMsg e), false)) ∧
    (∀ (config kv : Val) (ns : List Val) (st : VState),
      pyGetD config "kind" .vnull = some kv →
      pyGetD config "nodes" (.vseq []) = some (.vseq ns) →
      (∀ n ∈ ns, ∃ nl, n = Val.vmap nl) →
      validate_kind_config (.doc config) st = some
        (kindDocFindings kv ns st, (kindDocFindings kv ns st).errors.isEmpty)) := by
  refine ⟨fun st => rfl, fun e st => rfl, ?_⟩
  intro config kv ns st hkv hns hmaps
  simp only [validate_kind_config, Option.bind_eq_bind, hkv, Option.some_bind, hns,
    mapM_cp hmaps]
  rw [foldlM_ports ns hmaps]
  simp only [Option.some_bind, Option.pure_def]
  by_cases h3 : ns.any specIsCP
  · have h3n : ¬∀ a ∈ ns, specIsCP a = false := by
      intro hall
      simp [any_false_iff.mpr hall] at h3
    by_cases h1 : valEqStrB kv "Cluster" <;> by_cases h2 : ns.isEmpty <;>
      simp [h1, h2, h3, h3n, kindDocFindings, VState.addError, Val.truthy,
        List.any_map, Function.comp, List.append_assoc]
  · have h3f : ∀ a ∈ ns, specIsCP a = false := any_false_iff.mp (by simpa using h3)
    by_cases h1 : valEqStrB kv "Cluster" <;> by_cases h2 : ns.isEmpty <;>
      simp [h1, h2, h3, eq_true h3f, kindDocFindings, VState.addError, Val.truthy,
        List.any_map, Function.comp, List.append_assoc]

/-- Witness for C7: a `Cluster` document with one control-plane node and no
port mappings yields zero Errors and exactly one Warning. -/
theorem c7_witness :
    validate_kind_config (.doc kindDocGood) ⟨[], []⟩ =
      some (⟨[], [noPortMappingsMsg]⟩, true) := by
  have h := c7_kind_config.2.2 kindDocGood (.vstr "Cluster")
    [(.vmap [("role", .vstr "control-plane")])] ⟨[], []⟩ rfl rfl
    (by
      intro n hn
      rw [List.mem_singleton] at hn
      subst hn
      exact ⟨_, rfl⟩)
  rw [h]
  decide

end VC
